import Mathlib

set_option maxHeartbeats 1000000

/-!
Shallow embedding of src/frost-wasm-core/src/lib.rs: a FROST threshold-signature
ceremony coordinator.  Ceremony state travels by value; each boundary operation
parses its inputs, validates round preconditions, invokes opaque cryptographic
primitives, and returns an updated state inside a uniform result envelope.

Serialized strings are modelled by the inductive `Val`: the opaque cryptographic
primitives (dkg part1/part2, nonce commitment, signature share, aggregation,
trusted dealer) are modelled as uninterpreted injective constructors, and the
randomness drawn from the process RNG as an explicit numeric parameter.
Fallible JSON parses of caller-supplied strings are modelled as
`Except String _` inputs holding the parse outcome; `BTreeMap<String, String>`
is modelled as an association list sorted by key (matching BTreeMap insertion
and iteration order).
-/

/-- Abstract serialized blobs exchanged at the boundary.  Each constructor is an
uninterpreted image of one cryptographic primitive output (or a serde tuple). -/
inductive Val where
  | dkgSecret (id n t r : Nat)
  | dkgPub (id n t r : Nat)
  | part2Key (secret enc : Val)
  | part2Gpk (secret enc : Val)
  | nonces (k r : Nat)
  | commits (k r : Nat)
  | sigShare (sp : Nat) (non : Val) (k : Nat)
  | aggSig (sp : Nat) (enc : Val) (g : Nat)
  | dealerShare (r i : Nat)
  | dealerGpk (r : Nat)
  | ident (i : Nat)
  | pair (a b : Val)
deriving DecidableEq, Repr

/-- Fold an identifier-keyed package map into a single opaque value, used to
feed whole collections to uninterpreted primitives. -/
def encodeMap : List (Nat × Val) → Val
  | [] => Val.ident 0
  | (i, v) :: rest => Val.pair (Val.pair (Val.ident i) v) (encodeMap rest)

/-- Error taxonomy of the WASM interface (enum FrostError in lib.rs). -/
inductive FrostError where
  | InvalidParticipant (msg : String)
  | InsufficientParticipants (required actual : Nat)
  | KeygenError (msg : String)
  | SigningError (msg : String)
  | SerializationError (msg : String)
  | InvalidStateTransition (msg : String)
deriving DecidableEq, Repr

/-- Result envelope returned by every boundary operation (struct FrostResult). -/
structure FrostResult (α : Type) where
  success : Bool
  data : Option α
  error : Option FrostError
deriving DecidableEq, Repr

/-- FrostResult::ok. -/
def FrostResult.ok {α : Type} (d : α) : FrostResult α :=
  { success := true, data := some d, error := none }

/-- FrostResult::err. -/
def FrostResult.err {α : Type} (e : FrostError) : FrostResult α :=
  { success := false, data := none, error := some e }

/-- State of a key-generation ceremony (struct KeygenState). -/
structure KeygenState where
  threshold : Nat
  max_participants : Nat
  current_round : Nat
  round1_packages : List (String × Val)
  key_packages : List (String × Val)
  group_public_key : Option Val
deriving DecidableEq, Repr

/-- State of a signing ceremony (struct SigningState). -/
structure SigningState where
  message : List Nat
  current_round : Nat
  signers : List String
  round1_packages : List (String × Val)
  signature_shares : List (String × Val)
  final_signature : Option Val
deriving DecidableEq, Repr

/-- BTreeMap::insert on a key-sorted association list (overwrite on equal key).
Rust orders String keys byte-lexicographically; the comparison is written on
the underlying character lists, the order String.lt is defined from. -/
def mapInsert (k : String) (v : Val) : List (String × Val) → List (String × Val)
  | [] => [(k, v)]
  | (k', v') :: rest =>
    if k.data < k'.data then (k, v) :: (k', v') :: rest
    else if k = k' then (k, v) :: rest
    else (k', v') :: mapInsert k v rest

/-- BTreeMap::get on an association list. -/
def mapGet (k : String) : List (String × Val) → Option Val
  | [] => none
  | (k', v') :: rest => if k' = k then some v' else mapGet k rest

/-- Identifier::try_from applied to a usize cast to u16: the cast truncates
modulo 2^16 and try_from rejects exactly the zero identifier. -/
def identFromU16 (n : Nat) : Except String Nat :=
  if n % 65536 = 0 then Except.error "Invalid identifier" else Except.ok (n % 65536)

/-- Shared prologue of the stateful operations: parse the state envelope from
the caller-supplied JSON string and require its data field to be present. -/
def parseState {α : Type} (stateIn : Except String (FrostResult α)) : Except FrostError α :=
  match stateIn with
  | Except.error e => Except.error (FrostError.SerializationError e)
  | Except.ok r =>
    match r.data with
    | none => Except.error (FrostError.InvalidStateTransition "Invalid state provided")
    | some s => Except.ok s

/-- create_keygen_state. -/
def create_keygen_state (threshold max_participants : Nat) : FrostResult KeygenState :=
  if threshold = 0 ∨ threshold > max_participants then
    FrostResult.err (FrostError.InsufficientParticipants threshold max_participants)
  else
    FrostResult.ok
      { threshold := threshold, max_participants := max_participants, current_round := 1,
        round1_packages := [], key_packages := [], group_public_key := none }

/-- Inner closure of keygen_round1.  `part1` is the outcome of dkg::part1 with
the process RNG: an error string, or the randomness drawn on success. -/
def keygen_round1_core (stateIn : Except String (FrostResult KeygenState))
    (participant_id : String) (part1 : Except String Nat) :
    Except FrostError (KeygenState × Val) :=
  match parseState stateIn with
  | Except.error e => Except.error e
  | Except.ok state =>
    if state.current_round ≠ 1 then
      Except.error (FrostError.InvalidStateTransition "Expected round 1")
    else if state.round1_packages.length ≥ state.max_participants then
      Except.error (FrostError.InsufficientParticipants state.threshold state.max_participants)
    else
      match identFromU16 (state.round1_packages.length + 1) with
      | Except.error e => Except.error (FrostError.KeygenError e)
      | Except.ok identifier =>
        match part1 with
        | Except.error e => Except.error (FrostError.KeygenError e)
        | Except.ok r =>
          let round1_secret := Val.dkgSecret identifier state.max_participants state.threshold r
          let round1_package := Val.dkgPub identifier state.max_participants state.threshold r
          let package_serialized := Val.pair round1_secret round1_package
          let r1 := mapInsert participant_id package_serialized state.round1_packages
          let state' : KeygenState :=
            { state with
              round1_packages := r1,
              current_round := if r1.length ≥ state.threshold then 2 else state.current_round }
          Except.ok (state', package_serialized)

/-- keygen_round1 boundary function. -/
def keygen_round1 (stateIn : Except String (FrostResult KeygenState))
    (participant_id : String) (part1 : Except String Nat) :
    FrostResult (KeygenState × Val) :=
  match keygen_round1_core stateIn participant_id part1 with
  | Except.ok v => FrostResult.ok v
  | Except.error e => FrostResult.err e

/-- The loop of keygen_round2 collecting every other participant's round-1
package: decode each entry as a (secret, package) tuple, assign the peer the
identifier `|received| + 2`, and append (BTreeMap insertion at increasing
identifier keys coincides with appending). -/
def collectPeers (participant_id : String) (acc : List (Nat × Val)) :
    List (String × Val) → Except FrostError (List (Nat × Val))
  | [] => Except.ok acc
  | (other, v) :: rest =>
    if other ≠ participant_id then
      match v with
      | Val.pair _ pkg =>
        match identFromU16 (acc.length + 2) with
        | Except.error e => Except.error (FrostError.KeygenError e)
        | Except.ok idv => collectPeers participant_id (acc ++ [(idv, pkg)]) rest
      | _ => Except.error (FrostError.SerializationError "Failed to deserialize package")
    else collectPeers participant_id acc rest

/-- Inner closure of keygen_round2.  `pkgsIn` is the parse outcome of the
caller-supplied round-1 package collection; `part2` the outcome of dkg::part2. -/
def keygen_round2_core (stateIn : Except String (FrostResult KeygenState))
    (participant_id : String)
    (pkgsIn : Except String (List (String × Val)))
    (part2 : Except String Unit) :
    Except FrostError (KeygenState × Val) :=
  match parseState stateIn with
  | Except.error e => Except.error e
  | Except.ok state =>
    if state.current_round ≠ 2 then
      Except.error (FrostError.InvalidStateTransition "Expected round 2")
    else
      match pkgsIn with
      | Except.error e => Except.error (FrostError.SerializationError e)
      | Except.ok all_round1_packages =>
        match mapGet participant_id state.round1_packages with
        | none => Except.error (FrostError.InvalidParticipant participant_id)
        | some own =>
          match own with
          | Val.pair round1_secret _ =>
            match collectPeers participant_id [] all_round1_packages with
            | Except.error e => Except.error e
            | Except.ok received =>
              match part2 with
              | Except.error e => Except.error (FrostError.KeygenError e)
              | Except.ok _ =>
                let key_package := Val.part2Key round1_secret (encodeMap received)
                let gpk := Val.part2Gpk round1_secret (encodeMap received)
                let kp := mapInsert participant_id key_package state.key_packages
                let state' : KeygenState :=
                  { state with
                    key_packages := kp,
                    group_public_key :=
                      if kp.length ≥ state.threshold then some gpk
                      else state.group_public_key }
                Except.ok (state', key_package)
          | _ => Except.error (FrostError.SerializationError "Failed to deserialize round1 secret")

/-- keygen_round2 boundary function. -/
def keygen_round2 (stateIn : Except String (FrostResult KeygenState))
    (participant_id : String)
    (pkgsIn : Except String (List (String × Val)))
    (part2 : Except String Unit) :
    FrostResult (KeygenState × Val) :=
  match keygen_round2_core stateIn participant_id pkgsIn part2 with
  | Except.ok v => FrostResult.ok v
  | Except.error e => FrostResult.err e

/-- create_signing_state.  `signersIn` is the parse outcome of signers_json. -/
def create_signing_state (message : List Nat) (signersIn : Except String (List String)) :
    FrostResult SigningState :=
  match signersIn with
  | Except.error e => FrostResult.err (FrostError.SerializationError e)
  | Except.ok signers =>
    if signers.isEmpty then
      FrostResult.err (FrostError.InsufficientParticipants 1 0)
    else
      FrostResult.ok
        { message := message, current_round := 1, signers := signers,
          round1_packages := [], signature_shares := [], final_signature := none }

/-- Inner closure of signing_round1.  `keyIn` is the parse outcome of
key_package_json; `r` the randomness drawn by round1::commit (infallible). -/
def signing_round1_core (stateIn : Except String (FrostResult SigningState))
    (participant_id : String) (keyIn : Except String Nat) (r : Nat) :
    Except FrostError (SigningState × Val) :=
  match parseState stateIn with
  | Except.error e => Except.error e
  | Except.ok state =>
    if state.current_round ≠ 1 then
      Except.error (FrostError.InvalidStateTransition "Expected round 1")
    else
      match keyIn with
      | Except.error e => Except.error (FrostError.SerializationError e)
      | Except.ok k =>
        let round1_data := Val.pair (Val.nonces k r) (Val.commits k r)
        let r1 := mapInsert participant_id round1_data state.round1_packages
        let state' : SigningState :=
          { state with
            round1_packages := r1,
            current_round := if r1.length ≥ state.signers.length then 2 else state.current_round }
        Except.ok (state', Val.commits k r)

/-- signing_round1 boundary function. -/
def signing_round1 (stateIn : Except String (FrostResult SigningState))
    (participant_id : String) (keyIn : Except String Nat) (r : Nat) :
    FrostResult (SigningState × Val) :=
  match signing_round1_core stateIn participant_id keyIn r with
  | Except.ok v => FrostResult.ok v
  | Except.error e => FrostResult.err e

/-- The enumeration loop of signing_round2 mapping each stored signature share
to the identifier `idx + 1` by iteration order over the share map. -/
def indexShares : Nat → List (String × Val) → Except FrostError (List (Nat × Val))
  | _, [] => Except.ok []
  | idx, (_, share) :: rest =>
    match identFromU16 (idx + 1) with
    | Except.error e => Except.error (FrostError.SigningError e)
    | Except.ok idv =>
      match indexShares (idx + 1) rest with
      | Except.error e => Except.error e
      | Except.ok l => Except.ok ((idv, share) :: l)

/-- Inner closure of signing_round2.  `keyIn`, `spIn`, `gpkIn` are the parse
outcomes of the key package, signing package and group public key inputs
(the group public key is only parsed on the aggregation branch); `signOut` and
`aggOut` are the outcomes of round2::sign and frost::aggregate. -/
def signing_round2_core (stateIn : Except String (FrostResult SigningState))
    (participant_id : String) (keyIn : Except String Nat)
    (spIn : Except String Nat) (gpkIn : Except String Nat)
    (signOut : Except String Unit) (aggOut : Except String Unit) :
    Except FrostError (SigningState × Option Val) :=
  match parseState stateIn with
  | Except.error e => Except.error e
  | Except.ok state =>
    if state.current_round ≠ 2 then
      Except.error (FrostError.InvalidStateTransition "Expected round 2")
    else
      match keyIn with
      | Except.error e => Except.error (FrostError.SerializationError e)
      | Except.ok k =>
        match spIn with
        | Except.error e => Except.error (FrostError.SerializationError e)
        | Except.ok sp =>
          match mapGet participant_id state.round1_packages with
          | none => Except.error (FrostError.InvalidParticipant participant_id)
          | some stored =>
            match stored with
            | Val.pair nonceVal _ =>
              match signOut with
              | Except.error e => Except.error (FrostError.SigningError e)
              | Except.ok _ =>
                let share := Val.sigShare sp nonceVal k
                let shares := mapInsert participant_id share state.signature_shares
                let stateMid : SigningState := { state with signature_shares := shares }
                if shares.length ≥ state.signers.length then
                  match gpkIn with
                  | Except.error e => Except.error (FrostError.SerializationError e)
                  | Except.ok g =>
                    match indexShares 0 shares with
                    | Except.error e => Except.error e
                    | Except.ok idxShares =>
                      match aggOut with
                      | Except.error e => Except.error (FrostError.SigningError e)
                      | Except.ok _ =>
                        let final := Val.aggSig sp (encodeMap idxShares) g
                        Except.ok ({ stateMid with final_signature := some final }, some final)
                else
                  Except.ok (stateMid, none)
            | _ => Except.error (FrostError.SerializationError "Failed to deserialize nonces")

/-- signing_round2 boundary function. -/
def signing_round2 (stateIn : Except String (FrostResult SigningState))
    (participant_id : String) (keyIn : Except String Nat)
    (spIn : Except String Nat) (gpkIn : Except String Nat)
    (signOut : Except String Unit) (aggOut : Except String Unit) :
    FrostResult (SigningState × Option Val) :=
  match signing_round2_core stateIn participant_id keyIn spIn gpkIn signOut aggOut with
  | Except.ok v => FrostResult.ok v
  | Except.error e => FrostResult.err e

/-- generate_frost_shares (trusted dealer).  `dealer` is the outcome of
generate_with_dealer with the process RNG; the private key hex parameter is
acknowledged but unused, as in the source. -/
def generate_frost_shares (private_key_hex : String) (threshold max_participants : Nat)
    (dealer : Except String Nat) : FrostResult (Val × List (String × Val)) :=
  let _ := private_key_hex
  if threshold = 0 ∨ threshold > max_participants then
    FrostResult.err (FrostError.InsufficientParticipants threshold max_participants)
  else
    match dealer with
    | Except.error e => FrostResult.err (FrostError.KeygenError e)
    | Except.ok r =>
      let shares := (List.range max_participants).map (fun i =>
        (String.append "participant_" (toString (i + 1)), Val.dealerShare r (i + 1)))
      FrostResult.ok (Val.dealerGpk r, shares)

/-- verify_signature.  `sigIn` and `gpkIn` are the parse outcomes of the two
serialized inputs; `verdict` is whether the primitive verification succeeded. -/
def verify_signature (message : List Nat) (sigIn : Except String Nat)
    (gpkIn : Except String Nat) (verdict : Bool) : FrostResult Bool :=
  let _ := message
  match sigIn with
  | Except.error e => FrostResult.err (FrostError.SerializationError e)
  | Except.ok _ =>
    match gpkIn with
    | Except.error e => FrostResult.err (FrostError.SerializationError e)
    | Except.ok _ => FrostResult.ok verdict

/-- Decidable equality of parse outcomes, for evaluating concrete runs. -/
instance {ε α : Type} [DecidableEq ε] [DecidableEq α] : DecidableEq (Except ε α) :=
  fun a b =>
    match a, b with
    | Except.ok x, Except.ok y =>
      if h : x = y then isTrue (by rw [h]) else isFalse (by intro hh; cases hh; exact h rfl)
    | Except.error x, Except.error y =>
      if h : x = y then isTrue (by rw [h]) else isFalse (by intro hh; cases hh; exact h rfl)
    | Except.ok _, Except.error _ => isFalse (by intro hh; cases hh)
    | Except.error _, Except.ok _ => isFalse (by intro hh; cases hh)

/-- Exactly one of data and error is populated, and the populated field is
data precisely when success is true. -/
def envelopeOk {α : Type} (r : FrostResult α) : Prop :=
  r.data.isSome = r.success ∧ r.error.isSome = !r.success

/-- One keygen-coordinator call after creation: round 1 for a participant with
a dkg part1 outcome, or round 2 for a participant with a supplied package
collection and a dkg part2 outcome. -/
inductive KgOp where
  | r1 (pid : String) (part1 : Except String Nat)
  | r2 (pid : String) (pkgsIn : Except String (List (String × Val)))
      (part2 : Except String Unit)

/-- Run one successful keygen operation on a state held by the caller: a
failed call returns no state, so the caller keeps the old one. -/
def kgStep (s : KeygenState) : KgOp → Option KeygenState
  | KgOp.r1 pid p =>
    match keygen_round1_core (Except.ok (FrostResult.ok s)) pid p with
    | Except.ok (s', _) => some s'
    | Except.error _ => none
  | KgOp.r2 pid pk p2 =>
    match keygen_round2_core (Except.ok (FrostResult.ok s)) pid pk p2 with
    | Except.ok (s', _) => some s'
    | Except.error _ => none

/-- Run a sequence of successful keygen operations. -/
def kgRun : KeygenState → List KgOp → Option KeygenState
  | s, [] => some s
  | s, op :: ops =>
    match kgStep s op with
    | some s' => kgRun s' ops
    | none => none

/-- A keygen state reachable from create_keygen_state (with u16 parameters)
through a sequence of successful keygen operations. -/
def KgReachable (s : KeygenState) : Prop :=
  ∃ t n s0 ops, t < 65536 ∧ n < 65536 ∧
    (create_keygen_state t n).data = some s0 ∧ kgRun s0 ops = some s

/-- Inductive invariant of reachable keygen states. -/
def KgInv (s : KeygenState) : Prop :=
  1 ≤ s.threshold ∧ s.threshold ≤ s.max_participants ∧ s.threshold < 65536 ∧
  (s.current_round = 1 ∨ s.current_round = 2) ∧
  (s.current_round = 1 → s.round1_packages.length < s.threshold) ∧
  (s.current_round = 2 → s.threshold ≤ s.round1_packages.length) ∧
  s.round1_packages.Pairwise (fun a b => a.1.data < b.1.data)

/-- One signing-coordinator call after creation. -/
inductive SigOp where
  | r1 (pid : String) (keyIn : Except String Nat) (r : Nat)
  | r2 (pid : String) (keyIn spIn gpkIn : Except String Nat)
      (signOut aggOut : Except String Unit)

/-- Run one successful signing operation. -/
def sigStep (s : SigningState) : SigOp → Option SigningState
  | SigOp.r1 pid kIn r =>
    match signing_round1_core (Except.ok (FrostResult.ok s)) pid kIn r with
    | Except.ok (s', _) => some s'
    | Except.error _ => none
  | SigOp.r2 pid kIn spIn gIn so ao =>
    match signing_round2_core (Except.ok (FrostResult.ok s)) pid kIn spIn gIn so ao with
    | Except.ok (s', _) => some s'
    | Except.error _ => none

/-- Run a sequence of successful signing operations. -/
def sigRun : SigningState → List SigOp → Option SigningState
  | s, [] => some s
  | s, op :: ops =>
    match sigStep s op with
    | some s' => sigRun s' ops
    | none => none

/-- A signing state reachable from create_signing_state through a sequence of
successful signing operations. -/
def SigReachable (s : SigningState) : Prop :=
  ∃ m sIn s0 ops,
    (create_signing_state m sIn).data = some s0 ∧ sigRun s0 ops = some s

/-- Inductive invariant of reachable signing states. -/
def SigInv (s : SigningState) : Prop :=
  s.signers ≠ [] ∧
  (s.current_round = 1 ∨ s.current_round = 2) ∧
  (s.current_round = 1 → s.round1_packages.length < s.signers.length) ∧
  (s.current_round = 2 → s.round1_packages.length = s.signers.length) ∧
  s.round1_packages.Pairwise (fun a b => a.1.data < b.1.data)

/-- The key set image of a BTreeMap insertion: what mapInsert does to the
sorted key list, independent of the stored values. -/
def insertKey (k : String) : List String → List String
  | [] => [k]
  | k' :: rest =>
    if k.data < k'.data then k :: k' :: rest
    else if k = k' then k :: rest
    else k' :: insertKey k rest

/-- Two keygen states that agree on everything identifier assignment can
observe: parameters, round, and the key lists of both package maps. -/
def KgSim (s1 s2 : KeygenState) : Prop :=
  s1.threshold = s2.threshold ∧
  s1.max_participants = s2.max_participants ∧
  s1.current_round = s2.current_round ∧
  s1.round1_packages.map Prod.fst = s2.round1_packages.map Prod.fst ∧
  s1.key_packages.map Prod.fst = s2.key_packages.map Prod.fst

/-- Two keygen calls of the same call sequence position: same operation for
the same participant, differing only in the randomness-derived outcomes and
in the cryptographic payloads of the supplied collection (its keys agree). -/
inductive KgSameOp : KgOp → KgOp → Prop where
  | r1 (pid : String) (p q : Except String Nat) :
      KgSameOp (KgOp.r1 pid p) (KgOp.r1 pid q)
  | r2 (pid : String) (pk1 pk2 : Except String (List (String × Val)))
      (p2a p2b : Except String Unit)
      (hk : ∀ l1 l2, pk1 = Except.ok l1 → pk2 = Except.ok l2 →
        l1.map Prod.fst = l2.map Prod.fst) :
      KgSameOp (KgOp.r2 pid pk1 p2a) (KgOp.r2 pid pk2 p2b)

/-- Two signing states that agree on everything identifier assignment can
observe. -/
def SigSim (s1 s2 : SigningState) : Prop :=
  s1.current_round = s2.current_round ∧
  s1.signers = s2.signers ∧
  s1.round1_packages.map Prod.fst = s2.round1_packages.map Prod.fst ∧
  s1.signature_shares.map Prod.fst = s2.signature_shares.map Prod.fst

/-- Two signing calls of the same call sequence position, differing only in
randomness-derived cryptographic material. -/
inductive SigSameOp : SigOp → SigOp → Prop where
  | r1 (pid : String) (k1 k2 : Except String Nat) (r1 r2 : Nat) :
      SigSameOp (SigOp.r1 pid k1 r1) (SigOp.r1 pid k2 r2)
  | r2 (pid : String) (k1 k2 sp1 sp2 g1 g2 : Except String Nat)
      (so1 so2 ao1 ao2 : Except String Unit) :
      SigSameOp (SigOp.r2 pid k1 sp1 g1 so1 ao1) (SigOp.r2 pid k2 sp2 g2 so2 ao2)

/-! ### Association-list lemmas -/

theorem mapGet_mapInsert_self (k : String) (v : Val) (l : List (String × Val)) :
    mapGet k (mapInsert k v l) = some v := by
  induction l with
  | nil => simp [mapInsert, mapGet]
  | cons hd tl ih =>
    obtain ⟨k', v'⟩ := hd
    simp only [mapInsert]
    by_cases h1 : k.data < k'.data
    · simp [h1, mapGet]
    · by_cases h2 : k = k'
      · simp [h1, h2, mapGet]
      · have hne : ¬ k' = k := fun hh => h2 hh.symm
        simp [h1, h2, mapGet, hne, ih]

theorem mapGet_mapInsert_ne (k q : String) (hq : q ≠ k) (v : Val) (l : List (String × Val)) :
    mapGet q (mapInsert k v l) = mapGet q l := by
  have hkq : ¬ k = q := fun hh => hq hh.symm
  induction l with
  | nil => simp [mapInsert, mapGet, hkq]
  | cons hd tl ih =>
    obtain ⟨k', v'⟩ := hd
    simp only [mapInsert]
    by_cases h1 : k.data < k'.data
    · simp [h1, mapGet, hkq]
    · by_cases h2 : k = k'
      · subst h2
        simp [h1, mapGet, hkq]
      · simp only [h1, if_false, h2, if_neg, ite_false]
        by_cases h3 : k' = q
        · simp [mapGet, h3]
        · simp [mapGet, h3, ih]

theorem mapInsert_length_le (k : String) (v : Val) (l : List (String × Val)) :
    (mapInsert k v l).length ≤ l.length + 1 := by
  induction l with
  | nil => simp [mapInsert]
  | cons hd tl ih =>
    obtain ⟨k', v'⟩ := hd
    simp only [mapInsert]
    by_cases h1 : k.data < k'.data
    · simp [h1]
    · by_cases h2 : k = k'
      · simp [h1, h2]
      · simp only [h1, h2, if_false, ite_false, List.length_cons]
        omega

theorem length_le_mapInsert (k : String) (v : Val) (l : List (String × Val)) :
    l.length ≤ (mapInsert k v l).length := by
  induction l with
  | nil => simp [mapInsert]
  | cons hd tl ih =>
    obtain ⟨k', v'⟩ := hd
    simp only [mapInsert]
    by_cases h1 : k.data < k'.data
    · simp [h1]
    · by_cases h2 : k = k'
      · simp [h1, h2]
      · simp only [h1, h2, if_false, ite_false, List.length_cons]
        omega

/-! ### C2: creation parameter validation -/

/-- C2: create_keygen_state succeeds iff 1 ≤ T ≤ N; on failure the error is
InsufficientParticipants carrying (T, N); on success the returned state is a
fresh round-1 state with empty package maps and no group public key. -/
theorem create_keygen_state_spec : ∀ t n : Nat,
    ((create_keygen_state t n).success = true ↔ 1 ≤ t ∧ t ≤ n) ∧
    (t = 0 ∨ t > n →
      create_keygen_state t n =
        FrostResult.err (FrostError.InsufficientParticipants t n)) ∧
    (1 ≤ t ∧ t ≤ n →
      create_keygen_state t n =
        FrostResult.ok
          { threshold := t, max_participants := n, current_round := 1,
            round1_packages := [], key_packages := [], group_public_key := none }) := by
  intro t n
  by_cases h : t = 0 ∨ t > n
  · have hr : create_keygen_state t n =
        FrostResult.err (FrostError.InsufficientParticipants t n) := by
      simp [create_keygen_state, h]
    refine ⟨?_, fun _ => hr, fun hh => absurd hh (by omega)⟩
    rw [hr]
    exact ⟨fun hs => by simp [FrostResult.err] at hs, fun hh => absurd hh (by omega)⟩
  · have hr : create_keygen_state t n =
        FrostResult.ok
          { threshold := t, max_participants := n, current_round := 1,
            round1_packages := [], key_packages := [], group_public_key := none } := by
      simp [create_keygen_state, h]
    refine ⟨?_, fun hh => absurd hh h, fun _ => hr⟩
    rw [hr]
    exact ⟨fun _ => by omega, fun _ => rfl⟩

/-- Witness for C2 at threshold 2, 3 participants and at the failing input 0, 0. -/
theorem create_keygen_state_spec_witness :
    create_keygen_state 2 3 =
      FrostResult.ok
        { threshold := 2, max_participants := 3, current_round := 1,
          round1_packages := [], key_packages := [], group_public_key := none } ∧
    create_keygen_state 0 0 =
      FrostResult.err (FrostError.InsufficientParticipants 0 0) :=
  ⟨(create_keygen_state_spec 2 3).2.2 (by decide),
   (create_keygen_state_spec 0 0).2.1 (by decide)⟩

/-! ### C5: result envelope exclusivity -/

theorem envelopeOk_ok {α : Type} (d : α) : envelopeOk (FrostResult.ok d) := by
  simp [envelopeOk, FrostResult.ok]

theorem envelopeOk_err {α : Type} (e : FrostError) :
    envelopeOk (FrostResult.err e : FrostResult α) := by
  simp [envelopeOk, FrostResult.err]

/-- C5: every boundary operation returns an envelope in which exactly one of
the data and error fields is populated, and the populated field is data iff
success is true. -/
theorem frost_envelope_exclusive :
    (∀ t n, envelopeOk (create_keygen_state t n)) ∧
    (∀ si pid p, envelopeOk (keygen_round1 si pid p)) ∧
    (∀ si pid pk p2, envelopeOk (keygen_round2 si pid pk p2)) ∧
    (∀ m sIn, envelopeOk (create_signing_state m sIn)) ∧
    (∀ si pid kIn r, envelopeOk (signing_round1 si pid kIn r)) ∧
    (∀ si pid kIn spIn gIn so ao, envelopeOk (signing_round2 si pid kIn spIn gIn so ao)) ∧
    (∀ pk t n d, envelopeOk (generate_frost_shares pk t n d)) ∧
    (∀ m sg gi v, envelopeOk (verify_signature m sg gi v)) := by
  refine ⟨fun t n => ?_, fun si pid p => ?_, fun si pid pk p2 => ?_, fun m sIn => ?_,
    fun si pid kIn r => ?_, fun si pid kIn spIn gIn so ao => ?_, fun pk t n d => ?_,
    fun m sg gi v => ?_⟩
  · unfold create_keygen_state
    split
    · exact envelopeOk_err _
    · exact envelopeOk_ok _
  · unfold keygen_round1
    cases keygen_round1_core si pid p with
    | ok v => exact envelopeOk_ok _
    | error e => exact envelopeOk_err _
  · unfold keygen_round2
    cases keygen_round2_core si pid pk p2 with
    | ok v => exact envelopeOk_ok _
    | error e => exact envelopeOk_err _
  · unfold create_signing_state
    cases sIn with
    | error e => exact envelopeOk_err _
    | ok signers =>
      by_cases h : signers.isEmpty
      · simp only [h, if_true]
        exact envelopeOk_err _
      · simp only [h, if_false, ite_false]
        exact envelopeOk_ok _
  · unfold signing_round1
    cases signing_round1_core si pid kIn r with
    | ok v => exact envelopeOk_ok _
    | error e => exact envelopeOk_err _
  · unfold signing_round2
    cases signing_round2_core si pid kIn spIn gIn so ao with
    | ok v => exact envelopeOk_ok _
    | error e => exact envelopeOk_err _
  · unfold generate_frost_shares
    split
    · exact envelopeOk_err _
    · cases d with
      | error e => exact envelopeOk_err _
      | ok r => exact envelopeOk_ok _
  · unfold verify_signature
    cases sg with
    | error e => exact envelopeOk_err _
    | ok s =>
      cases gi with
      | error e => exact envelopeOk_err _
      | ok g => exact envelopeOk_ok _

/-! ### C6: failures are transactional -/

/-- C6: whenever any boundary operation fails, the returned envelope carries no
state at all (data is empty and only the error description is populated), so
the caller's prior state value is left untouched. -/
theorem frost_failure_returns_no_state :
    (∀ t n, (create_keygen_state t n).success = false →
      (create_keygen_state t n).data = none ∧
      (create_keygen_state t n).error.isSome = true) ∧
    (∀ si pid p, (keygen_round1 si pid p).success = false →
      (keygen_round1 si pid p).data = none ∧
      (keygen_round1 si pid p).error.isSome = true) ∧
    (∀ si pid pk p2, (keygen_round2 si pid pk p2).success = false →
      (keygen_round2 si pid pk p2).data = none ∧
      (keygen_round2 si pid pk p2).error.isSome = true) ∧
    (∀ m sIn, (create_signing_state m sIn).success = false →
      (create_signing_state m sIn).data = none ∧
      (create_signing_state m sIn).error.isSome = true) ∧
    (∀ si pid kIn r, (signing_round1 si pid kIn r).success = false →
      (signing_round1 si pid kIn r).data = none ∧
      (signing_round1 si pid kIn r).error.isSome = true) ∧
    (∀ si pid kIn spIn gIn so ao,
      (signing_round2 si pid kIn spIn gIn so ao).success = false →
      (signing_round2 si pid kIn spIn gIn so ao).data = none ∧
      (signing_round2 si pid kIn spIn gIn so ao).error.isSome = true) ∧
    (∀ pk t n d, (generate_frost_shares pk t n d).success = false →
      (generate_frost_shares pk t n d).data = none ∧
      (generate_frost_shares pk t n d).error.isSome = true) ∧
    (∀ m sg gi v, (verify_signature m sg gi v).success = false →
      (verify_signature m sg gi v).data = none ∧
      (verify_signature m sg gi v).error.isSome = true) := by
  have key : ∀ (α : Type) (r : FrostResult α), envelopeOk r → r.success = false →
      r.data = none ∧ r.error.isSome = true := by
    intro α r h hf
    obtain ⟨h1, h2⟩ := h
    rw [hf] at h1 h2
    refine ⟨?_, by simpa using h2⟩
    cases hd : r.data with
    | none => rfl
    | some d => rw [hd] at h1; simp at h1
  obtain ⟨e1, e2, e3, e4, e5, e6, e7, e8⟩ := frost_envelope_exclusive
  exact ⟨fun t n => key _ _ (e1 t n),
    fun si pid p => key _ _ (e2 si pid p),
    fun si pid pk p2 => key _ _ (e3 si pid pk p2),
    fun m sIn => key _ _ (e4 m sIn),
    fun si pid kIn r => key _ _ (e5 si pid kIn r),
    fun si pid kIn spIn gIn so ao => key _ _ (e6 si pid kIn spIn gIn so ao),
    fun pk t n d => key _ _ (e7 pk t n d),
    fun m sg gi v => key _ _ (e8 m sg gi v)⟩

/-- Witness for C6: concrete failing calls of each operation carry no data. -/
theorem frost_failure_returns_no_state_witness :
    (create_keygen_state 0 0).data = none ∧
    (keygen_round1 (Except.error "x") "a" (Except.ok 0)).data = none ∧
    (keygen_round2 (Except.error "x") "a" (Except.ok []) (Except.ok ())).data = none ∧
    (create_signing_state [] (Except.ok [])).data = none ∧
    (signing_round1 (Except.error "x") "a" (Except.ok 0) 0).data = none ∧
    (signing_round2 (Except.error "x") "a" (Except.ok 0) (Except.ok 0) (Except.ok 0)
      (Except.ok ()) (Except.ok ())).data = none ∧
    (generate_frost_shares "" 0 0 (Except.ok 0)).data = none ∧
    (verify_signature [] (Except.error "x") (Except.ok 0) true).data = none :=
  ⟨(frost_failure_returns_no_state.1 0 0 (by decide)).1,
   (frost_failure_returns_no_state.2.1 (Except.error "x") "a" (Except.ok 0) (by decide)).1,
   (frost_failure_returns_no_state.2.2.1 (Except.error "x") "a" (Except.ok [])
      (Except.ok ()) (by decide)).1,
   (frost_failure_returns_no_state.2.2.2.1 [] (Except.ok []) (by decide)).1,
   (frost_failure_returns_no_state.2.2.2.2.1 (Except.error "x") "a" (Except.ok 0) 0
      (by decide)).1,
   (frost_failure_returns_no_state.2.2.2.2.2.1 (Except.error "x") "a" (Except.ok 0)
      (Except.ok 0) (Except.ok 0) (Except.ok ()) (Except.ok ()) (by decide)).1,
   (frost_failure_returns_no_state.2.2.2.2.2.2.1 "" 0 0 (Except.ok 0) (by decide)).1,
   (frost_failure_returns_no_state.2.2.2.2.2.2.2 [] (Except.error "x") (Except.ok 0) true
      (by decide)).1⟩


/-! ### C7: signing round 1 distributes commitments only -/

/-- C7: every successful signing_round1 call returns as its public output the
serialization of the commitments alone, while the secret nonce is stored
(paired with the commitments) only in the returned state's round1_packages
entry for the calling participant; the distributed output is not the stored
nonce bundle. -/
theorem signing_round1_output_commitments_only :
    ∀ stateIn pid keyIn r s' out,
      signing_round1_core stateIn pid keyIn r = Except.ok (s', out) →
      ∃ k, keyIn = Except.ok k ∧
        out = Val.commits k r ∧
        mapGet pid s'.round1_packages =
          some (Val.pair (Val.nonces k r) (Val.commits k r)) ∧
        out ≠ Val.pair (Val.nonces k r) (Val.commits k r) := by
  intro stateIn pid keyIn r s' out h
  unfold signing_round1_core at h
  split at h
  · exact absurd h (by simp)
  · rename_i state hst
    split at h
    · exact absurd h (by simp)
    · split at h
      · exact absurd h (by simp)
      · rename_i pk1 k
        simp only [Except.ok.injEq, Prod.mk.injEq] at h
        obtain ⟨hs, ho⟩ := h
        refine ⟨k, rfl, ho.symm, ?_, by rw [← ho]; intro hh; cases hh⟩
        rw [← hs]
        exact mapGet_mapInsert_self pid _ state.round1_packages

/-- Witness for C7: one-participant signing ceremony, concrete key and RNG. -/
theorem signing_round1_output_commitments_only_witness :
    ∃ k, (Except.ok 7 : Except String Nat) = Except.ok k ∧
      Val.commits 7 5 = Val.commits k 5 ∧
      mapGet "a"
        (SigningState.round1_packages
          { message := [1], current_round := 2, signers := ["a"],
            round1_packages := [("a", Val.pair (Val.nonces 7 5) (Val.commits 7 5))],
            signature_shares := [], final_signature := none }) =
        some (Val.pair (Val.nonces k 5) (Val.commits k 5)) ∧
      Val.commits 7 5 ≠ Val.pair (Val.nonces k 5) (Val.commits k 5) :=
  signing_round1_output_commitments_only
    (Except.ok (FrostResult.ok
      { message := [1], current_round := 1, signers := ["a"],
        round1_packages := [], signature_shares := [], final_signature := none }))
    "a" (Except.ok 7) 5
    { message := [1], current_round := 2, signers := ["a"],
      round1_packages := [("a", Val.pair (Val.nonces 7 5) (Val.commits 7 5))],
      signature_shares := [], final_signature := none }
    (Val.commits 7 5) (by decide)

/-! ### C1: what keygen round 1 hands out for distribution -/

/-- C1 counterexample: at a concrete successful keygen_round1 call the second
component of the success payload is the serialized (secret, public) package
pair — the very blob stored in state — and not the serialized public round-1
package alone. -/
theorem keygen_round1_distributes_secret_ctrex :
    (keygen_round1
        (Except.ok (FrostResult.ok
          { threshold := 1, max_participants := 1, current_round := 1,
            round1_packages := [], key_packages := [], group_public_key := none }))
        "a" (Except.ok 0)).data =
      some
        ({ threshold := 1, max_participants := 1, current_round := 2,
           round1_packages :=
             [("a", Val.pair (Val.dkgSecret 1 1 1 0) (Val.dkgPub 1 1 1 0))],
           key_packages := [], group_public_key := none },
         Val.pair (Val.dkgSecret 1 1 1 0) (Val.dkgPub 1 1 1 0)) ∧
    Val.pair (Val.dkgSecret 1 1 1 0) (Val.dkgPub 1 1 1 0) ≠ Val.dkgPub 1 1 1 0 := by
  decide

/-- C1 (amended): for every successful keygen_round1 call the second component
of the success payload is the serialized secret+public package pair, and that
identical pair blob is what is stored in state keyed by participantId. -/
theorem keygen_round1_returns_stored_secret_pair :
    ∀ stateIn pid part1 s' v,
      keygen_round1_core stateIn pid part1 = Except.ok (s', v) →
      ∃ st r, parseState stateIn = Except.ok st ∧
        v = Val.pair
          (Val.dkgSecret ((st.round1_packages.length + 1) % 65536)
            st.max_participants st.threshold r)
          (Val.dkgPub ((st.round1_packages.length + 1) % 65536)
            st.max_participants st.threshold r) ∧
        mapGet pid s'.round1_packages = some v := by
  intro stateIn pid part1 s' v h
  unfold keygen_round1_core at h
  split at h
  · exact absurd h (by simp)
  · rename_i state hst
    split at h
    · exact absurd h (by simp)
    · split at h
      · exact absurd h (by simp)
      · split at h
        · exact absurd h (by simp)
        · rename_i idv hidv
          split at h
          · exact absurd h (by simp)
          · rename_i pk1 r
            simp only [Except.ok.injEq, Prod.mk.injEq] at h
            obtain ⟨hs, ho⟩ := h
            have hid : idv = (state.round1_packages.length + 1) % 65536 := by
              unfold identFromU16 at hidv
              split at hidv
              · exact absurd hidv (by simp)
              · simp only [Except.ok.injEq] at hidv
                exact hidv.symm
            refine ⟨state, r, hst, by rw [← ho, hid], ?_⟩
            rw [← hs, ← ho]
            exact mapGet_mapInsert_self pid _ state.round1_packages

/-- Witness for C1 (amended) at a concrete call. -/
theorem keygen_round1_returns_stored_secret_pair_witness :
    ∃ (st : KeygenState) (r : Nat),
      parseState
        (Except.ok (FrostResult.ok
          { threshold := 1, max_participants := 2, current_round := 1,
            round1_packages := [], key_packages := [], group_public_key := none })) =
        Except.ok st ∧
      Val.pair (Val.dkgSecret 1 2 1 9) (Val.dkgPub 1 2 1 9) =
        Val.pair
          (Val.dkgSecret ((st.round1_packages.length + 1) % 65536)
            st.max_participants st.threshold r)
          (Val.dkgPub ((st.round1_packages.length + 1) % 65536)
            st.max_participants st.threshold r) ∧
      mapGet "a"
        (KeygenState.round1_packages
          { threshold := 1, max_participants := 2, current_round := 2,
            round1_packages :=
              [("a", Val.pair (Val.dkgSecret 1 2 1 9) (Val.dkgPub 1 2 1 9))],
            key_packages := [], group_public_key := none }) =
        some (Val.pair (Val.dkgSecret 1 2 1 9) (Val.dkgPub 1 2 1 9)) :=
  keygen_round1_returns_stored_secret_pair
    (Except.ok (FrostResult.ok
      { threshold := 1, max_participants := 2, current_round := 1,
        round1_packages := [], key_packages := [], group_public_key := none }))
    "a" (Except.ok 9)
    { threshold := 1, max_participants := 2, current_round := 2,
      round1_packages :=
        [("a", Val.pair (Val.dkgSecret 1 2 1 9) (Val.dkgPub 1 2 1 9))],
      key_packages := [], group_public_key := none }
    (Val.pair (Val.dkgSecret 1 2 1 9) (Val.dkgPub 1 2 1 9)) (by decide)

/-! ### Further association-list lemmas -/


theorem mem_mapInsert (k : String) (v : Val) (l : List (String × Val)) (b : String × Val)
    (hb : b ∈ mapInsert k v l) : b = (k, v) ∨ b ∈ l := by
  induction l with
  | nil => simpa [mapInsert] using hb
  | cons hd tl ih =>
    obtain ⟨k', v'⟩ := hd
    simp only [mapInsert] at hb
    by_cases h1 : k.data < k'.data
    · rw [if_pos h1] at hb
      rcases List.mem_cons.mp hb with hb | hb
      · exact Or.inl hb
      · exact Or.inr hb
    · rw [if_neg h1] at hb
      by_cases h2 : k = k'
      · rw [if_pos h2] at hb
        rcases List.mem_cons.mp hb with hb | hb
        · exact Or.inl hb
        · exact Or.inr (List.mem_cons_of_mem _ hb)
      · rw [if_neg h2] at hb
        rcases List.mem_cons.mp hb with hb | hb
        · exact Or.inr (hb ▸ List.mem_cons_self _ _)
        · rcases ih hb with hc | hc
          · exact Or.inl hc
          · exact Or.inr (List.mem_cons_of_mem _ hc)

theorem mapInsert_pairwise (k : String) (v : Val) (l : List (String × Val))
    (h : l.Pairwise (fun a b => a.1.data < b.1.data)) :
    (mapInsert k v l).Pairwise (fun a b => a.1.data < b.1.data) := by
  induction l with
  | nil => simp [mapInsert]
  | cons hd tl ih =>
    obtain ⟨k', v'⟩ := hd
    rw [List.pairwise_cons] at h
    obtain ⟨hall, htl⟩ := h
    simp only [mapInsert]
    by_cases h1 : k.data < k'.data
    · rw [if_pos h1, List.pairwise_cons]
      refine ⟨?_, List.pairwise_cons.mpr ⟨hall, htl⟩⟩
      intro b hb
      rcases List.mem_cons.mp hb with hb | hb
      · rw [hb]; exact h1
      · exact lt_trans h1 (hall b hb)
    · rw [if_neg h1]
      by_cases h2 : k = k'
      · rw [if_pos h2, List.pairwise_cons]
        exact ⟨fun b hb => h2 ▸ hall b hb, htl⟩
      · rw [if_neg h2, List.pairwise_cons]
        have hlt : k'.data < k.data := by
          rcases lt_trichotomy k.data k'.data with h3 | h3 | h3
          · exact absurd h3 h1
          · exact absurd (by cases k; cases k'; exact congrArg String.mk h3) h2
          · exact h3
        refine ⟨?_, ih htl⟩
        intro b hb
        rcases mem_mapInsert k v tl b hb with hc | hc
        · rw [hc]; exact hlt
        · exact hall b hc

theorem mapGet_eq_none_iff (k : String) (l : List (String × Val)) :
    mapGet k l = none ↔ k ∉ l.map Prod.fst := by
  induction l with
  | nil => simp [mapGet]
  | cons hd tl ih =>
    obtain ⟨k', v'⟩ := hd
    simp only [mapGet, List.map_cons, List.mem_cons]
    by_cases h : k' = k
    · simp [h]
    · simp only [h, if_false, ite_false, ih]
      constructor
      · intro hn hc
        rcases hc with hc | hc
        · exact h hc.symm
        · exact hn hc
      · intro hn
        exact fun hc => hn (Or.inr hc)

theorem mapInsert_length_mem (k : String) (v : Val) (l : List (String × Val))
    (hp : l.Pairwise (fun a b => a.1.data < b.1.data)) (hm : k ∈ l.map Prod.fst) :
    (mapInsert k v l).length = l.length := by
  induction l with
  | nil => simp at hm
  | cons hd tl ih =>
    obtain ⟨k', v'⟩ := hd
    rw [List.pairwise_cons] at hp
    obtain ⟨hall, htl⟩ := hp
    simp only [List.map_cons, List.mem_cons] at hm
    simp only [mapInsert]
    by_cases h1 : k.data < k'.data
    · exfalso
      rcases hm with hm | hm
      · rw [hm] at h1; exact lt_irrefl _ h1
      · obtain ⟨⟨kb, vb⟩, hbmem, hbk⟩ := List.exists_of_mem_map hm
        have := hall _ hbmem
        rw [hbk] at this
        exact absurd h1 (not_lt.mpr this.le)
    · rw [if_neg h1]
      by_cases h2 : k = k'
      · rw [if_pos h2]; rfl
      · rw [if_neg h2]
        simp only [List.length_cons]
        have hm' : k ∈ tl.map Prod.fst := by
          rcases hm with hm | hm
          · exact absurd hm.symm (fun hh => h2 hh.symm)
          · exact hm
        rw [ih htl hm']

theorem mapInsert_length_not_mem (k : String) (v : Val) (l : List (String × Val))
    (hm : k ∉ l.map Prod.fst) :
    (mapInsert k v l).length = l.length + 1 := by
  induction l with
  | nil => simp [mapInsert]
  | cons hd tl ih =>
    obtain ⟨k', v'⟩ := hd
    simp only [List.map_cons, List.mem_cons] at hm
    push_neg at hm
    obtain ⟨hk', htl⟩ := hm
    simp only [mapInsert]
    by_cases h1 : k.data < k'.data
    · rw [if_pos h1]; rfl
    · rw [if_neg h1, if_neg hk']
      simp only [List.length_cons]
      rw [ih htl]

/-! ### Success inversion of the round operations on already-parsed states -/

theorem keygen_round1_core_ok (s : KeygenState) (pid : String) (p : Except String Nat)
    (s' : KeygenState) (v : Val)
    (h : keygen_round1_core (Except.ok (FrostResult.ok s)) pid p = Except.ok (s', v)) :
    s.current_round = 1 ∧ s.round1_packages.length < s.max_participants ∧
    s'.threshold = s.threshold ∧ s'.max_participants = s.max_participants ∧
    s'.key_packages = s.key_packages ∧ s'.group_public_key = s.group_public_key ∧
    s'.round1_packages = mapInsert pid v s.round1_packages ∧
    s'.current_round =
      (if s.threshold ≤ (mapInsert pid v s.round1_packages).length then 2
       else s.current_round) := by
  unfold keygen_round1_core at h
  have hps : parseState (Except.ok (FrostResult.ok s)) = Except.ok s := rfl
  rw [hps] at h
  simp only at h
  split at h
  · exact absurd h (by simp)
  · rename_i hr
    split at h
    · exact absurd h (by simp)
    · rename_i hn
      split at h
      · exact absurd h (by simp)
      · rename_i idv hidv
        split at h
        · exact absurd h (by simp)
        · rename_i pk1 r
          simp only [Except.ok.injEq, Prod.mk.injEq] at h
          obtain ⟨hs, hv⟩ := h
          rw [← hs, ← hv]
          refine ⟨by omega, by omega, rfl, rfl, rfl, rfl, rfl, rfl⟩

theorem keygen_round2_core_ok (s : KeygenState) (pid : String)
    (pk : Except String (List (String × Val))) (p2 : Except String Unit)
    (s' : KeygenState) (v : Val)
    (h : keygen_round2_core (Except.ok (FrostResult.ok s)) pid pk p2 = Except.ok (s', v)) :
    s.current_round = 2 ∧
    s'.threshold = s.threshold ∧ s'.max_participants = s.max_participants ∧
    s'.current_round = s.current_round ∧
    s'.round1_packages = s.round1_packages ∧
    s'.key_packages = mapInsert pid v s.key_packages := by
  unfold keygen_round2_core at h
  have hps : parseState (Except.ok (FrostResult.ok s)) = Except.ok s := rfl
  rw [hps] at h
  simp only at h
  split at h
  · exact absurd h (by simp)
  · rename_i hr
    split at h
    · exact absurd h (by simp)
    · rename_i pkgs
      split at h
      · exact absurd h (by simp)
      · rename_i own hown
        split at h
        · rename_i secret pkg
          split at h
          · exact absurd h (by simp)
          · rename_i received hrec
            split at h
            · exact absurd h (by simp)
            · rename_i u
              simp only [Except.ok.injEq, Prod.mk.injEq] at h
              obtain ⟨hs, hv⟩ := h
              rw [← hs, ← hv]
              exact ⟨by omega, rfl, rfl, rfl, rfl, rfl⟩
        · exact absurd h (by simp)

theorem signing_round1_core_ok (s : SigningState) (pid : String)
    (kIn : Except String Nat) (r : Nat) (s' : SigningState) (v : Val)
    (h : signing_round1_core (Except.ok (FrostResult.ok s)) pid kIn r = Except.ok (s', v)) :
    s.current_round = 1 ∧
    ∃ k, kIn = Except.ok k ∧
      s'.signers = s.signers ∧ s'.message = s.message ∧
      s'.signature_shares = s.signature_shares ∧ s'.final_signature = s.final_signature ∧
      s'.round1_packages = mapInsert pid (Val.pair (Val.nonces k r)
        (Val.commits k r)) s.round1_packages ∧
      s'.current_round =
        (if s.signers.length ≤ (mapInsert pid (Val.pair (Val.nonces k r)
          (Val.commits k r)) s.round1_packages).length then 2
         else s.current_round) := by
  unfold signing_round1_core at h
  have hps : parseState (Except.ok (FrostResult.ok s)) = Except.ok s := rfl
  rw [hps] at h
  simp only at h
  split at h
  · exact absurd h (by simp)
  · rename_i hr
    split at h
    · exact absurd h (by simp)
    · rename_i pk1 k
      simp only [Except.ok.injEq, Prod.mk.injEq] at h
      obtain ⟨hs, hv⟩ := h
      rw [← hs]
      exact ⟨by omega, k, rfl, rfl, rfl, rfl, rfl, rfl, rfl⟩

theorem signing_round2_core_ok (s : SigningState) (pid : String)
    (kIn spIn gIn : Except String Nat) (so ao : Except String Unit)
    (s' : SigningState) (v : Option Val)
    (h : signing_round2_core (Except.ok (FrostResult.ok s)) pid kIn spIn gIn so ao =
      Except.ok (s', v)) :
    s.current_round = 2 ∧
    s'.signers = s.signers ∧ s'.message = s.message ∧
    s'.current_round = s.current_round ∧
    s'.round1_packages = s.round1_packages ∧
    (∃ sh, s'.signature_shares = mapInsert pid sh s.signature_shares) := by
  unfold signing_round2_core at h
  have hps : parseState (Except.ok (FrostResult.ok s)) = Except.ok s := rfl
  rw [hps] at h
  simp only at h
  split at h
  · exact absurd h (by simp)
  · rename_i hr
    split at h
    · exact absurd h (by simp)
    · rename_i pk1 k
      split at h
      · exact absurd h (by simp)
      · rename_i pk2 sp
        split at h
        · exact absurd h (by simp)
        · rename_i stored hstored
          split at h
          · rename_i nonceVal cm
            split at h
            · exact absurd h (by simp)
            · rename_i u
              split at h
              · split at h
                · exact absurd h (by simp)
                · rename_i pk3 g
                  split at h
                  · exact absurd h (by simp)
                  · rename_i idxs hidxs
                    split at h
                    · exact absurd h (by simp)
                    · rename_i u2
                      simp only [Except.ok.injEq, Prod.mk.injEq] at h
                      obtain ⟨hs, hv⟩ := h
                      rw [← hs]
                      exact ⟨by omega, rfl, rfl, rfl, rfl, _, rfl⟩
              · simp only [Except.ok.injEq, Prod.mk.injEq] at h
                obtain ⟨hs, hv⟩ := h
                rw [← hs]
                exact ⟨by omega, rfl, rfl, rfl, rfl, _, rfl⟩
          · exact absurd h (by simp)

/-! ### Invariants of reachable ceremony states -/

theorem create_keygen_state_data (t n : Nat) (s0 : KeygenState)
    (h : (create_keygen_state t n).data = some s0) :
    1 ≤ t ∧ t ≤ n ∧
    s0 = { threshold := t, max_participants := n, current_round := 1,
           round1_packages := [], key_packages := [], group_public_key := none } := by
  unfold create_keygen_state at h
  split at h
  · simp [FrostResult.err] at h
  · rename_i hc
    push_neg at hc
    simp only [FrostResult.ok, Option.some.injEq] at h
    exact ⟨by omega, by omega, h.symm⟩

theorem kgStep_inv (s s' : KeygenState) (op : KgOp) (h : kgStep s op = some s')
    (hi : KgInv s) : KgInv s' := by
  obtain ⟨h1, h2, h3, h4, h5, h6, h7⟩ := hi
  cases op with
  | r1 pid p =>
    simp only [kgStep] at h
    split at h
    · rename_i s'' v heq
      simp only [Option.some.injEq] at h
      rw [← h]
      obtain ⟨hr1, hlen, ht, hm, hk, hg, hrp, hcr⟩ := keygen_round1_core_ok s pid p s'' v heq
      have hub := mapInsert_length_le pid v s.round1_packages
      have hlb := length_le_mapInsert pid v s.round1_packages
      unfold KgInv
      rw [ht, hm, hrp, hcr]
      by_cases hc : s.threshold ≤ (mapInsert pid v s.round1_packages).length
      · rw [if_pos hc]
        refine ⟨h1, h2, h3, Or.inr rfl, by omega, fun _ => hc,
          mapInsert_pairwise pid v s.round1_packages h7⟩
      · rw [if_neg hc]
        refine ⟨h1, h2, h3, Or.inl hr1, fun _ => by omega, fun hcon => by omega,
          mapInsert_pairwise pid v s.round1_packages h7⟩
    · exact absurd h (by simp)
  | r2 pid pk p2 =>
    simp only [kgStep] at h
    split at h
    · rename_i s'' v heq
      simp only [Option.some.injEq] at h
      rw [← h]
      obtain ⟨hr2, ht, hm, hcr, hrp, hk⟩ := keygen_round2_core_ok s pid pk p2 s'' v heq
      unfold KgInv
      rw [ht, hm, hcr, hrp]
      exact ⟨h1, h2, h3, h4, h5, h6, h7⟩
    · exact absurd h (by simp)

theorem kgStep_round_mono (s s' : KeygenState) (op : KgOp) (h : kgStep s op = some s') :
    s.current_round ≤ s'.current_round := by
  cases op with
  | r1 pid p =>
    simp only [kgStep] at h
    split at h
    · rename_i s'' v heq
      simp only [Option.some.injEq] at h
      rw [← h]
      obtain ⟨hr1, _, _, _, _, _, _, hcr⟩ := keygen_round1_core_ok s pid p s'' v heq
      rw [hcr, hr1]
      by_cases hc : s.threshold ≤ (mapInsert pid v s.round1_packages).length
      · rw [if_pos hc]; omega
      · rw [if_neg hc]
    · exact absurd h (by simp)
  | r2 pid pk p2 =>
    simp only [kgStep] at h
    split at h
    · rename_i s'' v heq
      simp only [Option.some.injEq] at h
      rw [← h]
      obtain ⟨_, _, _, hcr, _, _⟩ := keygen_round2_core_ok s pid pk p2 s'' v heq
      omega
    · exact absurd h (by simp)

theorem kgRun_inv (ops : List KgOp) : ∀ s s', kgRun s ops = some s' → KgInv s → KgInv s' := by
  induction ops with
  | nil =>
    intro s s' h hi
    simp only [kgRun] at h
    simp only [Option.some.injEq] at h
    rw [← h]; exact hi
  | cons op ops ih =>
    intro s s' h hi
    simp only [kgRun] at h
    split at h
    · rename_i smid heq
      exact ih smid s' h (kgStep_inv s smid op heq hi)
    · exact absurd h (by simp)

theorem kgReachable_inv (s : KeygenState) (h : KgReachable s) : KgInv s := by
  obtain ⟨t, n, s0, ops, ht, hn, hcre, hrun⟩ := h
  obtain ⟨h1, h2, h3⟩ := create_keygen_state_data t n s0 hcre
  refine kgRun_inv ops s0 s hrun ?_
  rw [h3]
  exact ⟨h1, h2, ht, Or.inl rfl, fun _ => h1,
    fun hh => absurd (show (1 : Nat) = 2 from hh) (by omega), by simp⟩

theorem create_signing_state_data (m : List Nat) (sIn : Except String (List String))
    (s0 : SigningState) (h : (create_signing_state m sIn).data = some s0) :
    ∃ signers, sIn = Except.ok signers ∧ signers ≠ [] ∧
      s0 = { message := m, current_round := 1, signers := signers,
             round1_packages := [], signature_shares := [], final_signature := none } := by
  unfold create_signing_state at h
  split at h
  · simp [FrostResult.err] at h
  · rename_i signers
    split at h
    · simp [FrostResult.err] at h
    · rename_i hne
      simp only [FrostResult.ok, Option.some.injEq] at h
      exact ⟨signers, rfl, by simpa [List.isEmpty_iff] using hne, h.symm⟩

theorem sigStep_inv (s s' : SigningState) (op : SigOp) (h : sigStep s op = some s')
    (hi : SigInv s) : SigInv s' := by
  obtain ⟨h1, h2, h3, h4, h5⟩ := hi
  cases op with
  | r1 pid kIn r =>
    simp only [sigStep] at h
    split at h
    · rename_i s'' v heq
      simp only [Option.some.injEq] at h
      rw [← h]
      obtain ⟨hr1, k, hkIn, hsg, hmsg, hsh, hf, hrp, hcr⟩ :=
        signing_round1_core_ok s pid kIn r s'' v heq
      have hub := mapInsert_length_le pid (Val.pair (Val.nonces k r) (Val.commits k r))
        s.round1_packages
      have hlb := length_le_mapInsert pid (Val.pair (Val.nonces k r) (Val.commits k r))
        s.round1_packages
      have hlen1 : s.round1_packages.length < s.signers.length := h3 hr1
      unfold SigInv
      rw [hsg, hrp, hcr]
      by_cases hc : s.signers.length ≤ (mapInsert pid (Val.pair (Val.nonces k r)
        (Val.commits k r)) s.round1_packages).length
      · rw [if_pos hc]
        refine ⟨h1, Or.inr rfl, by omega, fun _ => by omega,
          mapInsert_pairwise pid _ s.round1_packages h5⟩
      · rw [if_neg hc]
        refine ⟨h1, Or.inl hr1, fun _ => by omega, fun hcon => by omega,
          mapInsert_pairwise pid _ s.round1_packages h5⟩
    · exact absurd h (by simp)
  | r2 pid kIn spIn gIn so ao =>
    simp only [sigStep] at h
    split at h
    · rename_i s'' v heq
      simp only [Option.some.injEq] at h
      rw [← h]
      obtain ⟨hr2, hsg, hmsg, hcr, hrp, hshex⟩ :=
        signing_round2_core_ok s pid kIn spIn gIn so ao s'' v heq
      unfold SigInv
      rw [hsg, hcr, hrp]
      exact ⟨h1, h2, h3, h4, h5⟩
    · exact absurd h (by simp)

theorem sigStep_round_mono (s s' : SigningState) (op : SigOp) (h : sigStep s op = some s') :
    s.current_round ≤ s'.current_round := by
  cases op with
  | r1 pid kIn r =>
    simp only [sigStep] at h
    split at h
    · rename_i s'' v heq
      simp only [Option.some.injEq] at h
      rw [← h]
      obtain ⟨hr1, k, hkIn, hsg, hmsg, hsh, hf, hrp, hcr⟩ :=
        signing_round1_core_ok s pid kIn r s'' v heq
      rw [hcr, hr1]
      by_cases hc : s.signers.length ≤ (mapInsert pid (Val.pair (Val.nonces k r)
        (Val.commits k r)) s.round1_packages).length
      · rw [if_pos hc]; omega
      · rw [if_neg hc]
    · exact absurd h (by simp)
  | r2 pid kIn spIn gIn so ao =>
    simp only [sigStep] at h
    split at h
    · rename_i s'' v heq
      simp only [Option.some.injEq] at h
      rw [← h]
      obtain ⟨_, _, _, hcr, _, _⟩ := signing_round2_core_ok s pid kIn spIn gIn so ao s'' v heq
      omega
    · exact absurd h (by simp)

theorem sigRun_inv (ops : List SigOp) :
    ∀ s s', sigRun s ops = some s' → SigInv s → SigInv s' := by
  induction ops with
  | nil =>
    intro s s' h hi
    simp only [sigRun] at h
    simp only [Option.some.injEq] at h
    rw [← h]; exact hi
  | cons op ops ih =>
    intro s s' h hi
    simp only [sigRun] at h
    split at h
    · rename_i smid heq
      exact ih smid s' h (sigStep_inv s smid op heq hi)
    · exact absurd h (by simp)

theorem sigReachable_inv (s : SigningState) (h : SigReachable s) : SigInv s := by
  obtain ⟨m, sIn, s0, ops, hcre, hrun⟩ := h
  obtain ⟨signers, hsIn, hne, h0⟩ := create_signing_state_data m sIn s0 hcre
  refine sigRun_inv ops s0 s hrun ?_
  rw [h0]
  refine ⟨hne, Or.inl rfl, fun _ => ?_, fun hh => by simp at hh, by simp⟩
  simp only [List.length_nil]
  exact List.length_pos.mpr hne

/-! ### C3: monotone, quorum-gated round transitions -/

/-- C3: over every sequence of successful keygen and signing operations the
current round never decreases, and a round-2 state is reachable only with the
round-1 quorum met: at least threshold stored packages for keygen, and exactly
as many stored packages as signers for signing. -/
theorem round_transitions_monotone_and_quorum_gated :
    (∀ s s' op, kgStep s op = some s' → s.current_round ≤ s'.current_round) ∧
    (∀ s s' op, sigStep s op = some s' → s.current_round ≤ s'.current_round) ∧
    (∀ s, KgReachable s → s.current_round = 2 →
      s.threshold ≤ s.round1_packages.length) ∧
    (∀ s, SigReachable s → s.current_round = 2 →
      s.round1_packages.length = s.signers.length) :=
  ⟨fun s s' op h => kgStep_round_mono s s' op h,
   fun s s' op h => sigStep_round_mono s s' op h,
   fun s hr h2 => (kgReachable_inv s hr).2.2.2.2.2.1 h2,
   fun s hr h2 => (sigReachable_inv s hr).2.2.2.1 h2⟩

/-- Witness for C3: a one-participant keygen and signing ceremony, each run one
round-1 call to quorum. -/
theorem round_transitions_monotone_and_quorum_gated_witness :
    (KeygenState.current_round
        { threshold := 1, max_participants := 1, current_round := 1,
          round1_packages := [], key_packages := [], group_public_key := none } ≤
      KeygenState.current_round
        { threshold := 1, max_participants := 1, current_round := 2,
          round1_packages :=
            [("a", Val.pair (Val.dkgSecret 1 1 1 0) (Val.dkgPub 1 1 1 0))],
          key_packages := [], group_public_key := none }) ∧
    (SigningState.current_round
        { message := [], current_round := 1, signers := ["a"],
          round1_packages := [], signature_shares := [], final_signature := none } ≤
      SigningState.current_round
        { message := [], current_round := 2, signers := ["a"],
          round1_packages := [("a", Val.pair (Val.nonces 0 0) (Val.commits 0 0))],
          signature_shares := [], final_signature := none }) ∧
    (KeygenState.threshold
        { threshold := 1, max_participants := 1, current_round := 2,
          round1_packages :=
            [("a", Val.pair (Val.dkgSecret 1 1 1 0) (Val.dkgPub 1 1 1 0))],
          key_packages := [], group_public_key := none } ≤
      (KeygenState.round1_packages
        { threshold := 1, max_participants := 1, current_round := 2,
          round1_packages :=
            [("a", Val.pair (Val.dkgSecret 1 1 1 0) (Val.dkgPub 1 1 1 0))],
          key_packages := [], group_public_key := none }).length) ∧
    ((SigningState.round1_packages
        { message := [], current_round := 2, signers := ["a"],
          round1_packages := [("a", Val.pair (Val.nonces 0 0) (Val.commits 0 0))],
          signature_shares := [], final_signature := none }).length =
      (SigningState.signers
        { message := [], current_round := 2, signers := ["a"],
          round1_packages := [("a", Val.pair (Val.nonces 0 0) (Val.commits 0 0))],
          signature_shares := [], final_signature := none }).length) :=
  ⟨round_transitions_monotone_and_quorum_gated.1
      { threshold := 1, max_participants := 1, current_round := 1,
        round1_packages := [], key_packages := [], group_public_key := none }
      { threshold := 1, max_participants := 1, current_round := 2,
        round1_packages :=
          [("a", Val.pair (Val.dkgSecret 1 1 1 0) (Val.dkgPub 1 1 1 0))],
        key_packages := [], group_public_key := none }
      (KgOp.r1 "a" (Except.ok 0)) (by decide),
   round_transitions_monotone_and_quorum_gated.2.1
      { message := [], current_round := 1, signers := ["a"],
        round1_packages := [], signature_shares := [], final_signature := none }
      { message := [], current_round := 2, signers := ["a"],
        round1_packages := [("a", Val.pair (Val.nonces 0 0) (Val.commits 0 0))],
        signature_shares := [], final_signature := none }
      (SigOp.r1 "a" (Except.ok 0) 0) (by decide),
   round_transitions_monotone_and_quorum_gated.2.2.1
      { threshold := 1, max_participants := 1, current_round := 2,
        round1_packages :=
          [("a", Val.pair (Val.dkgSecret 1 1 1 0) (Val.dkgPub 1 1 1 0))],
        key_packages := [], group_public_key := none }
      ⟨1, 1,
        { threshold := 1, max_participants := 1, current_round := 1,
          round1_packages := [], key_packages := [], group_public_key := none },
        [KgOp.r1 "a" (Except.ok 0)], by decide, by decide, by decide, by decide⟩
      (by decide),
   round_transitions_monotone_and_quorum_gated.2.2.2
      { message := [], current_round := 2, signers := ["a"],
        round1_packages := [("a", Val.pair (Val.nonces 0 0) (Val.commits 0 0))],
        signature_shares := [], final_signature := none }
      ⟨[], Except.ok ["a"],
        { message := [], current_round := 1, signers := ["a"],
          round1_packages := [], signature_shares := [], final_signature := none },
        [SigOp.r1 "a" (Except.ok 0) 0], by decide, by decide⟩
      (by decide)⟩

/-! ### C8: resubmission overwrites without other effects -/

/-- C8: on a reachable round-1 keygen state that already holds an entry for the
calling participant, keygen_round1 succeeds again, replaces only that
participant's round-1 entry, and leaves the current round, every other
participant's entry, the map size, the key packages and the group public key
unchanged. -/
theorem keygen_round1_resubmission_frame :
    ∀ (s : KeygenState) (pid : String) (r : Nat) (v0 : Val),
      KgReachable s → s.current_round = 1 →
      mapGet pid s.round1_packages = some v0 →
      ∃ s' v, keygen_round1_core (Except.ok (FrostResult.ok s)) pid (Except.ok r) =
          Except.ok (s', v) ∧
        s'.current_round = s.current_round ∧
        mapGet pid s'.round1_packages = some v ∧
        (∀ q, q ≠ pid → mapGet q s'.round1_packages = mapGet q s.round1_packages) ∧
        s'.round1_packages.length = s.round1_packages.length ∧
        s'.key_packages = s.key_packages ∧
        s'.group_public_key = s.group_public_key := by
  intro s pid r v0 hreach hr1 hget
  obtain ⟨h1, h2, h3, h4, h5, h6, h7⟩ := kgReachable_inv s hreach
  have hlen : s.round1_packages.length < s.threshold := h5 hr1
  have hlenN : s.round1_packages.length < s.max_participants := lt_of_lt_of_le hlen h2
  have hmem : pid ∈ s.round1_packages.map Prod.fst := by
    by_contra hc
    rw [← mapGet_eq_none_iff pid s.round1_packages] at hc
    rw [hget] at hc
    cases hc
  have hz : ¬ (s.round1_packages.length + 1) % 65536 = 0 := by
    have hsmall : s.round1_packages.length + 1 < 65536 := by omega
    rw [Nat.mod_eq_of_lt hsmall]
    omega
  set vNew := Val.pair
    (Val.dkgSecret ((s.round1_packages.length + 1) % 65536)
      s.max_participants s.threshold r)
    (Val.dkgPub ((s.round1_packages.length + 1) % 65536)
      s.max_participants s.threshold r) with hvNew
  have hlen' := mapInsert_length_mem pid vNew s.round1_packages h7 hmem
  refine ⟨{ s with
      round1_packages := mapInsert pid vNew s.round1_packages,
      current_round :=
        if s.threshold ≤ (mapInsert pid vNew s.round1_packages).length then 2
        else s.current_round },
    vNew, ?_, ?_, ?_, ?_, ?_, rfl, rfl⟩
  · unfold keygen_round1_core
    rw [show parseState (Except.ok (FrostResult.ok s)) = Except.ok s from rfl]
    simp only
    rw [if_neg (fun hh => hh hr1), if_neg (not_le.mpr hlenN)]
    unfold identFromU16
    rw [if_neg hz]
  · exact if_neg (by rw [hlen']; omega)
  · exact mapGet_mapInsert_self pid _ s.round1_packages
  · exact fun q hq => mapGet_mapInsert_ne pid q hq _ s.round1_packages
  · exact hlen'

/-- Witness for C8: two-participant keygen ceremony in round 1 where
participant a resubmits round 1. -/
theorem keygen_round1_resubmission_frame_witness :
    ∃ s' v, keygen_round1_core
        (Except.ok (FrostResult.ok
          { threshold := 2, max_participants := 2, current_round := 1,
            round1_packages :=
              [("a", Val.pair (Val.dkgSecret 1 2 2 0) (Val.dkgPub 1 2 2 0))],
            key_packages := [], group_public_key := none }))
        "a" (Except.ok 3) = Except.ok (s', v) ∧
      s'.current_round = KeygenState.current_round
        { threshold := 2, max_participants := 2, current_round := 1,
          round1_packages :=
            [("a", Val.pair (Val.dkgSecret 1 2 2 0) (Val.dkgPub 1 2 2 0))],
          key_packages := [], group_public_key := none } ∧
      mapGet "a" s'.round1_packages = some v ∧
      (∀ q, q ≠ "a" → mapGet q s'.round1_packages =
        mapGet q [("a", Val.pair (Val.dkgSecret 1 2 2 0) (Val.dkgPub 1 2 2 0))]) ∧
      s'.round1_packages.length =
        ([("a", Val.pair (Val.dkgSecret 1 2 2 0) (Val.dkgPub 1 2 2 0))] :
          List (String × Val)).length ∧
      s'.key_packages = ([] : List (String × Val)) ∧
      s'.group_public_key = (none : Option Val) :=
  keygen_round1_resubmission_frame
    { threshold := 2, max_participants := 2, current_round := 1,
      round1_packages :=
        [("a", Val.pair (Val.dkgSecret 1 2 2 0) (Val.dkgPub 1 2 2 0))],
      key_packages := [], group_public_key := none }
    "a" 3 (Val.pair (Val.dkgSecret 1 2 2 0) (Val.dkgPub 1 2 2 0))
    ⟨2, 2,
      { threshold := 2, max_participants := 2, current_round := 1,
        round1_packages := [], key_packages := [], group_public_key := none },
      [KgOp.r1 "a" (Except.ok 0)], by decide, by decide, by decide, by decide⟩
    rfl (by decide)

/-! ### C10: no membership check against the signers list -/

/-- C10: neither signing_round1 nor signing_round2 checks that the calling
participant is one of the state's signers.  A participant absent from signers
still succeeds (round preconditions and well-formed inputs given), its entry
is stored in round1_packages respectively signature_shares, and that entry
counts toward the quorum comparisons against the signers count that advance
the round or trigger aggregation. -/
theorem signing_rounds_no_signer_membership_check :
    (∀ (s : SigningState) (pid : String) (k r : Nat),
      s.current_round = 1 → pid ∉ s.signers →
      ∃ s', signing_round1_core (Except.ok (FrostResult.ok s)) pid (Except.ok k) r =
          Except.ok (s', Val.commits k r) ∧
        s'.round1_packages =
          mapInsert pid (Val.pair (Val.nonces k r) (Val.commits k r)) s.round1_packages ∧
        mapGet pid s'.round1_packages =
          some (Val.pair (Val.nonces k r) (Val.commits k r)) ∧
        (s'.current_round = 2 ↔
          s.signers.length ≤ s'.round1_packages.length)) ∧
    (∀ (s : SigningState) (pid : String) (k sp : Nat) (a b : Val)
        (gAny : Except String Nat) (aAny : Except String Unit),
      s.current_round = 2 → pid ∉ s.signers →
      mapGet pid s.round1_packages = some (Val.pair a b) →
      ¬ s.signers.length ≤
        (mapInsert pid (Val.sigShare sp a k) s.signature_shares).length →
      signing_round2_core (Except.ok (FrostResult.ok s)) pid (Except.ok k)
          (Except.ok sp) gAny (Except.ok ()) aAny =
        Except.ok
          ({ s with signature_shares :=
              mapInsert pid (Val.sigShare sp a k) s.signature_shares }, none) ∧
      mapGet pid (mapInsert pid (Val.sigShare sp a k) s.signature_shares) =
        some (Val.sigShare sp a k)) ∧
    (∀ (s : SigningState) (pid : String) (k sp g : Nat) (a b : Val)
        (il : List (Nat × Val)),
      s.current_round = 2 → pid ∉ s.signers →
      mapGet pid s.round1_packages = some (Val.pair a b) →
      s.signers.length ≤
        (mapInsert pid (Val.sigShare sp a k) s.signature_shares).length →
      indexShares 0 (mapInsert pid (Val.sigShare sp a k) s.signature_shares) =
        Except.ok il →
      signing_round2_core (Except.ok (FrostResult.ok s)) pid (Except.ok k)
          (Except.ok sp) (Except.ok g) (Except.ok ()) (Except.ok ()) =
        Except.ok
          ({ s with
              signature_shares := mapInsert pid (Val.sigShare sp a k) s.signature_shares,
              final_signature := some (Val.aggSig sp (encodeMap il) g) },
           some (Val.aggSig sp (encodeMap il) g))) := by
  refine ⟨?_, ?_, ?_⟩
  · intro s pid k r hr1 hmem
    refine ⟨{ s with
        round1_packages :=
          mapInsert pid (Val.pair (Val.nonces k r) (Val.commits k r)) s.round1_packages,
        current_round :=
          if s.signers.length ≤
            (mapInsert pid (Val.pair (Val.nonces k r) (Val.commits k r))
              s.round1_packages).length then 2
          else s.current_round },
      ?_, rfl, mapGet_mapInsert_self pid _ s.round1_packages, ?_⟩
    · unfold signing_round1_core
      rw [show parseState (Except.ok (FrostResult.ok s)) = Except.ok s from rfl]
      simp only
      rw [if_neg (fun hh => hh hr1)]
    · by_cases hc : s.signers.length ≤
        (mapInsert pid (Val.pair (Val.nonces k r) (Val.commits k r))
          s.round1_packages).length
      · exact ⟨fun _ => hc, fun _ => if_pos hc⟩
      · refine ⟨fun hh => ?_, fun hh => absurd hh hc⟩
        rw [show (if s.signers.length ≤
            (mapInsert pid (Val.pair (Val.nonces k r) (Val.commits k r))
              s.round1_packages).length then 2 else s.current_round) =
          s.current_round from if_neg hc, hr1] at hh
        exact absurd hh (by omega)
  · intro s pid k sp a b gAny aAny hr2 hmem hget hlt
    refine ⟨?_, mapGet_mapInsert_self pid _ s.signature_shares⟩
    unfold signing_round2_core
    rw [show parseState (Except.ok (FrostResult.ok s)) = Except.ok s from rfl]
    simp only
    rw [if_neg (fun hh => hh hr2)]
    try simp only
    rw [hget]
    try simp only
    rw [if_neg hlt]
  · intro s pid k sp g a b il hr2 hmem hget hge hidx
    unfold signing_round2_core
    rw [show parseState (Except.ok (FrostResult.ok s)) = Except.ok s from rfl]
    simp only
    rw [if_neg (fun hh => hh hr2)]
    try simp only
    rw [hget]
    try simp only
    rw [if_pos hge, hidx]

/-- Witness for C10: participant a is absent from the signers list in each
scenario, yet all three calls succeed and the foreign entry fills the quorum.
On the non-final path the group public key input is not even parsed. -/
theorem signing_rounds_no_signer_membership_check_witness :
    (∃ s', signing_round1_core
        (Except.ok (FrostResult.ok
          { message := [], current_round := 1, signers := ["b"],
            round1_packages := [], signature_shares := [], final_signature := none }))
        "a" (Except.ok 1) 2 = Except.ok (s', Val.commits 1 2) ∧
      s'.round1_packages =
        mapInsert "a" (Val.pair (Val.nonces 1 2) (Val.commits 1 2)) [] ∧
      mapGet "a" s'.round1_packages =
        some (Val.pair (Val.nonces 1 2) (Val.commits 1 2)) ∧
      (s'.current_round = 2 ↔
        (["b"] : List String).length ≤ s'.round1_packages.length)) ∧
    (signing_round2_core
        (Except.ok (FrostResult.ok
          { message := [], current_round := 2, signers := ["b", "c"],
            round1_packages := [("a", Val.pair (Val.nonces 1 2) (Val.commits 1 2))],
            signature_shares := [], final_signature := none }))
        "a" (Except.ok 1) (Except.ok 3) (Except.error "g") (Except.ok ())
        (Except.error "agg") =
      Except.ok
        ({ message := [], current_round := 2, signers := ["b", "c"],
           round1_packages := [("a", Val.pair (Val.nonces 1 2) (Val.commits 1 2))],
           signature_shares :=
             mapInsert "a" (Val.sigShare 3 (Val.nonces 1 2) 1) [],
           final_signature := none }, none) ∧
      mapGet "a" (mapInsert "a" (Val.sigShare 3 (Val.nonces 1 2) 1) []) =
        some (Val.sigShare 3 (Val.nonces 1 2) 1)) ∧
    (signing_round2_core
        (Except.ok (FrostResult.ok
          { message := [], current_round := 2, signers := ["b"],
            round1_packages := [("a", Val.pair (Val.nonces 1 2) (Val.commits 1 2))],
            signature_shares := [], final_signature := none }))
        "a" (Except.ok 1) (Except.ok 3) (Except.ok 4) (Except.ok ())
        (Except.ok ()) =
      Except.ok
        ({ message := [], current_round := 2, signers := ["b"],
           round1_packages := [("a", Val.pair (Val.nonces 1 2) (Val.commits 1 2))],
           signature_shares :=
             mapInsert "a" (Val.sigShare 3 (Val.nonces 1 2) 1) [],
           final_signature :=
             some (Val.aggSig 3
               (encodeMap [(1, Val.sigShare 3 (Val.nonces 1 2) 1)]) 4) },
         some (Val.aggSig 3
           (encodeMap [(1, Val.sigShare 3 (Val.nonces 1 2) 1)]) 4))) :=
  ⟨signing_rounds_no_signer_membership_check.1
      { message := [], current_round := 1, signers := ["b"],
        round1_packages := [], signature_shares := [], final_signature := none }
      "a" 1 2 rfl (by decide),
   signing_rounds_no_signer_membership_check.2.1
      { message := [], current_round := 2, signers := ["b", "c"],
        round1_packages := [("a", Val.pair (Val.nonces 1 2) (Val.commits 1 2))],
        signature_shares := [], final_signature := none }
      "a" 1 3 (Val.nonces 1 2) (Val.commits 1 2) (Except.error "g")
      (Except.error "agg") rfl (by decide) (by decide) (by decide),
   signing_rounds_no_signer_membership_check.2.2
      { message := [], current_round := 2, signers := ["b"],
        round1_packages := [("a", Val.pair (Val.nonces 1 2) (Val.commits 1 2))],
        signature_shares := [], final_signature := none }
      "a" 1 3 4 (Val.nonces 1 2) (Val.commits 1 2)
      [(1, Val.sigShare 3 (Val.nonces 1 2) 1)]
      rfl (by decide) (by decide) (by decide) (by decide)⟩

theorem parseState_ok {α : Type} (s : α) :
    parseState (Except.ok (FrostResult.ok s)) = Except.ok s := rfl


/-! ### C4: two-signer signing ceremony finalization -/

/-- C4: in a signing ceremony with two signers that has reached round 2 with
no shares yet, the first successful signing_round2 call returns none as the
optional signature component and leaves final_signature unset, and the second
call (reaching as many shares as signers) returns and stores the final
signature, produced from the group public key supplied as an explicit input
parameter of that call. -/
theorem signing_round2_two_signer_scenario :
    ∀ (m : List Nat) (p1 p2 : String) (rp : List (String × Val))
      (n1 c1 n2 c2 : Val) (k1 k2 sp g : Nat) (gAny : Except String Nat),
      p1 ≠ p2 →
      mapGet p1 rp = some (Val.pair n1 c1) →
      mapGet p2 rp = some (Val.pair n2 c2) →
      ∃ s1 s2 fs,
        signing_round2_core
            (Except.ok (FrostResult.ok
              { message := m, current_round := 2, signers := [p1, p2],
                round1_packages := rp, signature_shares := [],
                final_signature := none }))
            p1 (Except.ok k1) (Except.ok sp) gAny (Except.ok ()) (Except.ok ()) =
          Except.ok (s1, none) ∧
        s1.final_signature = none ∧
        signing_round2_core (Except.ok (FrostResult.ok s1)) p2 (Except.ok k2)
            (Except.ok sp) (Except.ok g) (Except.ok ()) (Except.ok ()) =
          Except.ok (s2, some fs) ∧
        s2.final_signature = some fs ∧
        (∃ enc, fs = Val.aggSig sp enc g) := by
  intro m p1 p2 rp n1 c1 n2 c2 k1 k2 sp g gAny hne hg1 hg2
  have hne2 : ¬ p2 = p1 := fun hh => hne hh.symm
  have h1 : signing_round2_core
      (Except.ok (FrostResult.ok
        { message := m, current_round := 2, signers := [p1, p2],
          round1_packages := rp, signature_shares := [],
          final_signature := none }))
      p1 (Except.ok k1) (Except.ok sp) gAny (Except.ok ()) (Except.ok ()) =
      Except.ok
        ({ message := m, current_round := 2, signers := [p1, p2],
           round1_packages := rp,
           signature_shares := [(p1, Val.sigShare sp n1 k1)],
           final_signature := none }, none) := by
    unfold signing_round2_core
    rw [parseState_ok]
    simp only
    rw [if_neg (fun hh => hh rfl)]
    try simp only
    rw [hg1]
    try simp only
    rw [if_neg (show ¬ (mapInsert p1 (Val.sigShare sp n1 k1)
      ([] : List (String × Val))).length ≥ ([p1, p2] : List String).length from by
        simp [mapInsert])]
    rfl
  by_cases hlt : p2.data < p1.data
  · have hins : mapInsert p2 (Val.sigShare sp n2 k2) [(p1, Val.sigShare sp n1 k1)] =
        [(p2, Val.sigShare sp n2 k2), (p1, Val.sigShare sp n1 k1)] := by
      simp [mapInsert, hlt]
    have h2 : signing_round2_core
        (Except.ok (FrostResult.ok
          { message := m, current_round := 2, signers := [p1, p2],
            round1_packages := rp,
            signature_shares := [(p1, Val.sigShare sp n1 k1)],
            final_signature := none }))
        p2 (Except.ok k2) (Except.ok sp) (Except.ok g) (Except.ok ())
        (Except.ok ()) =
        Except.ok
          ({ message := m, current_round := 2, signers := [p1, p2],
             round1_packages := rp,
             signature_shares :=
               [(p2, Val.sigShare sp n2 k2), (p1, Val.sigShare sp n1 k1)],
             final_signature := some (Val.aggSig sp
               (encodeMap [(1, Val.sigShare sp n2 k2),
                 (2, Val.sigShare sp n1 k1)]) g) },
           some (Val.aggSig sp
             (encodeMap [(1, Val.sigShare sp n2 k2),
               (2, Val.sigShare sp n1 k1)]) g)) := by
      unfold signing_round2_core
      rw [parseState_ok]
      simp only
      rw [if_neg (fun hh => hh rfl)]
      try simp only
      rw [hg2]
      try simp only
      rw [hins]
      rw [if_pos (show ([(p2, Val.sigShare sp n2 k2),
          (p1, Val.sigShare sp n1 k1)] : List (String × Val)).length ≥
        ([p1, p2] : List String).length from by simp)]
      try simp only
      rw [show indexShares 0
          [(p2, Val.sigShare sp n2 k2), (p1, Val.sigShare sp n1 k1)] =
        Except.ok [(1, Val.sigShare sp n2 k2), (2, Val.sigShare sp n1 k1)] from rfl]
    exact ⟨_, _, _, h1, rfl, h2, rfl,
      encodeMap [(1, Val.sigShare sp n2 k2), (2, Val.sigShare sp n1 k1)], rfl⟩
  · have hins : mapInsert p2 (Val.sigShare sp n2 k2) [(p1, Val.sigShare sp n1 k1)] =
        [(p1, Val.sigShare sp n1 k1), (p2, Val.sigShare sp n2 k2)] := by
      simp [mapInsert, hlt, hne2]
    have h2 : signing_round2_core
        (Except.ok (FrostResult.ok
          { message := m, current_round := 2, signers := [p1, p2],
            round1_packages := rp,
            signature_shares := [(p1, Val.sigShare sp n1 k1)],
            final_signature := none }))
        p2 (Except.ok k2) (Except.ok sp) (Except.ok g) (Except.ok ())
        (Except.ok ()) =
        Except.ok
          ({ message := m, current_round := 2, signers := [p1, p2],
             round1_packages := rp,
             signature_shares :=
               [(p1, Val.sigShare sp n1 k1), (p2, Val.sigShare sp n2 k2)],
             final_signature := some (Val.aggSig sp
               (encodeMap [(1, Val.sigShare sp n1 k1),
                 (2, Val.sigShare sp n2 k2)]) g) },
           some (Val.aggSig sp
             (encodeMap [(1, Val.sigShare sp n1 k1),
               (2, Val.sigShare sp n2 k2)]) g)) := by
      unfold signing_round2_core
      rw [parseState_ok]
      simp only
      rw [if_neg (fun hh => hh rfl)]
      try simp only
      rw [hg2]
      try simp only
      rw [hins]
      rw [if_pos (show ([(p1, Val.sigShare sp n1 k1),
          (p2, Val.sigShare sp n2 k2)] : List (String × Val)).length ≥
        ([p1, p2] : List String).length from by simp)]
      try simp only
      rw [show indexShares 0
          [(p1, Val.sigShare sp n1 k1), (p2, Val.sigShare sp n2 k2)] =
        Except.ok [(1, Val.sigShare sp n1 k1), (2, Val.sigShare sp n2 k2)] from rfl]
    exact ⟨_, _, _, h1, rfl, h2, rfl,
      encodeMap [(1, Val.sigShare sp n1 k1), (2, Val.sigShare sp n2 k2)], rfl⟩

/-- Witness for C4: signers a and b with concrete keys, nonces and group key;
the first call is even given an unparseable group-public-key input. -/
theorem signing_round2_two_signer_scenario_witness :
    ∃ s1 s2 fs,
      signing_round2_core
          (Except.ok (FrostResult.ok
            { message := [9], current_round := 2, signers := ["a", "b"],
              round1_packages :=
                [("a", Val.pair (Val.nonces 1 2) (Val.commits 1 2)),
                 ("b", Val.pair (Val.nonces 3 4) (Val.commits 3 4))],
              signature_shares := [], final_signature := none }))
          "a" (Except.ok 1) (Except.ok 5) (Except.error "no-gpk") (Except.ok ())
          (Except.ok ()) =
        Except.ok (s1, none) ∧
      s1.final_signature = none ∧
      signing_round2_core (Except.ok (FrostResult.ok s1)) "b" (Except.ok 3)
          (Except.ok 5) (Except.ok 6) (Except.ok ()) (Except.ok ()) =
        Except.ok (s2, some fs) ∧
      s2.final_signature = some fs ∧
      (∃ enc, fs = Val.aggSig 5 enc 6) :=
  signing_round2_two_signer_scenario [9] "a" "b"
    [("a", Val.pair (Val.nonces 1 2) (Val.commits 1 2)),
     ("b", Val.pair (Val.nonces 3 4) (Val.commits 3 4))]
    (Val.nonces 1 2) (Val.commits 1 2) (Val.nonces 3 4) (Val.commits 3 4)
    1 3 5 6 (Except.error "no-gpk") (by decide) (by decide) (by decide)

/-! ### Identifier-determinism helpers -/

theorem mapInsert_map_fst (k : String) (v : Val) (l : List (String × Val)) :
    (mapInsert k v l).map Prod.fst = insertKey k (l.map Prod.fst) := by
  induction l with
  | nil => simp [mapInsert, insertKey]
  | cons hd tl ih =>
    obtain ⟨k', v'⟩ := hd
    simp only [mapInsert, insertKey, List.map_cons]
    by_cases h1 : k.data < k'.data
    · simp [h1]
    · by_cases h2 : k = k'
      · simp [h1, h2]
      · simp [h1, h2, ih]

theorem keygen_round1_core_payload (s : KeygenState) (pid : String)
    (p : Except String Nat) (s' : KeygenState) (v : Val)
    (h : keygen_round1_core (Except.ok (FrostResult.ok s)) pid p = Except.ok (s', v)) :
    ∃ r, p = Except.ok r ∧
      v = Val.pair
        (Val.dkgSecret ((s.round1_packages.length + 1) % 65536)
          s.max_participants s.threshold r)
        (Val.dkgPub ((s.round1_packages.length + 1) % 65536)
          s.max_participants s.threshold r) := by
  unfold keygen_round1_core at h
  rw [parseState_ok] at h
  simp only at h
  split at h
  · exact absurd h (by simp)
  · split at h
    · exact absurd h (by simp)
    · split at h
      · exact absurd h (by simp)
      · rename_i idv hidv
        split at h
        · exact absurd h (by simp)
        · rename_i pk1 r
          simp only [Except.ok.injEq, Prod.mk.injEq] at h
          obtain ⟨hs, hv⟩ := h
          have hid : idv = (s.round1_packages.length + 1) % 65536 := by
            unfold identFromU16 at hidv
            split at hidv
            · exact absurd hidv (by simp)
            · simp only [Except.ok.injEq] at hidv
              exact hidv.symm
          exact ⟨r, rfl, by rw [← hv, hid]⟩

theorem collectPeers_fst_det (pid : String) :
    ∀ (pkgs1 pkgs2 : List (String × Val)) (acc1 acc2 l1 l2 : List (Nat × Val)),
      pkgs1.map Prod.fst = pkgs2.map Prod.fst →
      acc1.map Prod.fst = acc2.map Prod.fst →
      collectPeers pid acc1 pkgs1 = Except.ok l1 →
      collectPeers pid acc2 pkgs2 = Except.ok l2 →
      l1.map Prod.fst = l2.map Prod.fst := by
  intro pkgs1
  induction pkgs1 with
  | nil =>
    intro pkgs2 acc1 acc2 l1 l2 hk ha h1 h2
    have hp2 : pkgs2 = [] := by
      cases pkgs2 with
      | nil => rfl
      | cons b bs => simp at hk
    subst hp2
    simp only [collectPeers, Except.ok.injEq] at h1 h2
    rw [← h1, ← h2]
    exact ha
  | cons hd tl ih =>
    intro pkgs2 acc1 acc2 l1 l2 hk ha h1 h2
    obtain ⟨k, v⟩ := hd
    cases pkgs2 with
    | nil => simp at hk
    | cons hd2 tl2 =>
      obtain ⟨k2, v2⟩ := hd2
      simp only [List.map_cons, List.cons.injEq] at hk
      obtain ⟨hkk, htl⟩ := hk
      have hlen : acc1.length = acc2.length := by
        have := congrArg List.length ha
        simpa using this
      simp only [collectPeers] at h1 h2
      by_cases hp : k ≠ pid
      · rw [if_pos hp] at h1
        rw [if_pos (hkk ▸ hp)] at h2
        split at h1
        · rename_i a1 pkg1
          split at h1
          · exact absurd h1 (by simp)
          · rename_i idv1 hidv1
            split at h2
            · rename_i a2 pkg2
              split at h2
              · exact absurd h2 (by simp)
              · rename_i idv2 hidv2
                have hidv : idv1 = idv2 := by
                  unfold identFromU16 at hidv1 hidv2
                  rw [hlen] at hidv1
                  split at hidv1
                  · exact absurd hidv1 (by simp)
                  · split at hidv2
                    · exact absurd hidv2 (by simp)
                    · simp only [Except.ok.injEq] at hidv1 hidv2
                      rw [← hidv1, ← hidv2]
                exact ih tl2 (acc1 ++ [(idv1, pkg1)]) (acc2 ++ [(idv2, pkg2)])
                  l1 l2 htl (by simp [ha, hidv]) h1 h2
            · exact absurd h2 (by simp)
        · exact absurd h1 (by simp)
      · rw [if_neg hp] at h1
        rw [if_neg (hkk ▸ hp)] at h2
        exact ih tl2 acc1 acc2 l1 l2 htl ha h1 h2

theorem indexShares_fst_det :
    ∀ (sh1 sh2 : List (String × Val)) (n : Nat) (il1 il2 : List (Nat × Val)),
      sh1.length = sh2.length →
      indexShares n sh1 = Except.ok il1 →
      indexShares n sh2 = Except.ok il2 →
      il1.map Prod.fst = il2.map Prod.fst := by
  intro sh1
  induction sh1 with
  | nil =>
    intro sh2 n il1 il2 hlen h1 h2
    have hs2 : sh2 = [] := by
      cases sh2 with
      | nil => rfl
      | cons b bs => simp at hlen
    subst hs2
    simp only [indexShares, Except.ok.injEq] at h1 h2
    rw [← h1, ← h2]
  | cons hd tl ih =>
    intro sh2 n il1 il2 hlen h1 h2
    obtain ⟨p1, x1⟩ := hd
    cases sh2 with
    | nil => simp at hlen
    | cons hd2 tl2 =>
      obtain ⟨p2, x2⟩ := hd2
      simp only [List.length_cons, Nat.succ.injEq] at hlen
      simp only [indexShares] at h1 h2
      split at h1
      · exact absurd h1 (by simp)
      · rename_i idv hidv
        split at h1
        · exact absurd h1 (by simp)
        · rename_i jl1 hjl1
          rw [hidv] at h2
          split at h2
          · rename_i e he
            exact absurd he (by simp)
          · rename_i jl2 hjl2
            have hj : jl2 = idv := by
              simp only [Except.ok.injEq] at hjl2
              exact hjl2.symm
            split at h2
            · exact absurd h2 (by simp)
            · rename_i kl2 hkl2
              simp only [Except.ok.injEq] at h1 h2
              rw [← h1, ← h2]
              simp only [List.map_cons, List.cons.injEq]
              exact ⟨hj.symm, ih tl2 (n + 1) jl1 kl2 hlen hjl1 hkl2⟩

theorem kgStep_sim (s1 s2 t1 t2 : KeygenState) (op1 op2 : KgOp)
    (hsim : KgSim s1 s2) (hop : KgSameOp op1 op2)
    (h1 : kgStep s1 op1 = some t1) (h2 : kgStep s2 op2 = some t2) : KgSim t1 t2 := by
  obtain ⟨e1, e2, e3, e4, e5⟩ := hsim
  cases hop with
  | r1 pid p q =>
    simp only [kgStep] at h1 h2
    split at h1
    · rename_i u1 v1 heq1
      simp only [Option.some.injEq] at h1
      subst h1
      split at h2
      · rename_i u2 v2 heq2
        simp only [Option.some.injEq] at h2
        subst h2
        obtain ⟨hr11, _, ht1, hm1, hk1, hg1, hrp1, hcr1⟩ :=
          keygen_round1_core_ok s1 pid p u1 v1 heq1
        obtain ⟨hr12, _, ht2, hm2, hk2, hg2, hrp2, hcr2⟩ :=
          keygen_round1_core_ok s2 pid q u2 v2 heq2
        have hfst : (mapInsert pid v1 s1.round1_packages).map Prod.fst =
            (mapInsert pid v2 s2.round1_packages).map Prod.fst := by
          rw [mapInsert_map_fst, mapInsert_map_fst, e4]
        have hlen : (mapInsert pid v1 s1.round1_packages).length =
            (mapInsert pid v2 s2.round1_packages).length := by
          have hc := congrArg List.length hfst
          simpa using hc
        refine ⟨?_, ?_, ?_, ?_, ?_⟩
        · rw [ht1, ht2, e1]
        · rw [hm1, hm2, e2]
        · rw [hcr1, hcr2, e1, hlen, e3]
        · rw [hrp1, hrp2]
          exact hfst
        · rw [hk1, hk2]
          exact e5
      · exact absurd h2 (by simp)
    · exact absurd h1 (by simp)
  | r2 pid pk1 pk2 p2a p2b hk =>
    simp only [kgStep] at h1 h2
    split at h1
    · rename_i u1 v1 heq1
      simp only [Option.some.injEq] at h1
      subst h1
      split at h2
      · rename_i u2 v2 heq2
        simp only [Option.some.injEq] at h2
        subst h2
        obtain ⟨hr21, ht1, hm1, hcr1, hrp1, hkp1⟩ :=
          keygen_round2_core_ok s1 pid pk1 p2a u1 v1 heq1
        obtain ⟨hr22, ht2, hm2, hcr2, hrp2, hkp2⟩ :=
          keygen_round2_core_ok s2 pid pk2 p2b u2 v2 heq2
        refine ⟨by rw [ht1, ht2, e1], by rw [hm1, hm2, e2], by rw [hcr1, hcr2, e3],
          by rw [hrp1, hrp2]; exact e4, ?_⟩
        rw [hkp1, hkp2, mapInsert_map_fst, mapInsert_map_fst, e5]
      · exact absurd h2 (by simp)
    · exact absurd h1 (by simp)

theorem kgRun_sim (ops1 ops2 : List KgOp) (hf : List.Forall₂ KgSameOp ops1 ops2) :
    ∀ s1 s2 t1 t2, KgSim s1 s2 →
      kgRun s1 ops1 = some t1 → kgRun s2 ops2 = some t2 → KgSim t1 t2 := by
  induction hf with
  | nil =>
    intro s1 s2 t1 t2 hsim h1 h2
    simp only [kgRun, Option.some.injEq] at h1 h2
    rw [← h1, ← h2]
    exact hsim
  | cons hop htl ih =>
    intro s1 s2 t1 t2 hsim h1 h2
    simp only [kgRun] at h1 h2
    split at h1
    · rename_i m1 hm1
      split at h2
      · rename_i m2 hm2
        exact ih m1 m2 t1 t2 (kgStep_sim _ _ _ _ _ _ hsim hop hm1 hm2) h1 h2
      · exact absurd h2 (by simp)
    · exact absurd h1 (by simp)

theorem sigStep_sim (s1 s2 t1 t2 : SigningState) (op1 op2 : SigOp)
    (hsim : SigSim s1 s2) (hop : SigSameOp op1 op2)
    (h1 : sigStep s1 op1 = some t1) (h2 : sigStep s2 op2 = some t2) : SigSim t1 t2 := by
  obtain ⟨e1, e2, e3, e4⟩ := hsim
  cases hop with
  | r1 pid kIn1 kIn2 r1 r2 =>
    simp only [sigStep] at h1 h2
    split at h1
    · rename_i u1 v1 heq1
      simp only [Option.some.injEq] at h1
      subst h1
      split at h2
      · rename_i u2 v2 heq2
        simp only [Option.some.injEq] at h2
        subst h2
        obtain ⟨hr11, k1, hk1, hsg1, hmsg1, hsh1, hf1, hrp1, hcr1⟩ :=
          signing_round1_core_ok s1 pid kIn1 r1 u1 v1 heq1
        obtain ⟨hr12, k2, hk2, hsg2, hmsg2, hsh2, hf2, hrp2, hcr2⟩ :=
          signing_round1_core_ok s2 pid kIn2 r2 u2 v2 heq2
        have hfst : (mapInsert pid (Val.pair (Val.nonces k1 r1) (Val.commits k1 r1))
              s1.round1_packages).map Prod.fst =
            (mapInsert pid (Val.pair (Val.nonces k2 r2) (Val.commits k2 r2))
              s2.round1_packages).map Prod.fst := by
          rw [mapInsert_map_fst, mapInsert_map_fst, e3]
        have hlen : (mapInsert pid (Val.pair (Val.nonces k1 r1) (Val.commits k1 r1))
              s1.round1_packages).length =
            (mapInsert pid (Val.pair (Val.nonces k2 r2) (Val.commits k2 r2))
              s2.round1_packages).length := by
          have hc := congrArg List.length hfst
          simpa using hc
        refine ⟨?_, ?_, ?_, ?_⟩
        · rw [hcr1, hcr2, e2, hlen, e1]
        · rw [hsg1, hsg2, e2]
        · rw [hrp1, hrp2]
          exact hfst
        · rw [hsh1, hsh2]
          exact e4
      · exact absurd h2 (by simp)
    · exact absurd h1 (by simp)
  | r2 pid k1 k2 sp1 sp2 g1 g2 so1 so2 ao1 ao2 =>
    simp only [sigStep] at h1 h2
    split at h1
    · rename_i u1 v1 heq1
      simp only [Option.some.injEq] at h1
      subst h1
      split at h2
      · rename_i u2 v2 heq2
        simp only [Option.some.injEq] at h2
        subst h2
        obtain ⟨hr21, hsg1, hmsg1, hcr1, hrp1, sh1, hsh1⟩ :=
          signing_round2_core_ok s1 pid k1 sp1 g1 so1 ao1 u1 v1 heq1
        obtain ⟨hr22, hsg2, hmsg2, hcr2, hrp2, sh2, hsh2⟩ :=
          signing_round2_core_ok s2 pid k2 sp2 g2 so2 ao2 u2 v2 heq2
        refine ⟨by rw [hcr1, hcr2, e1], by rw [hsg1, hsg2, e2],
          by rw [hrp1, hrp2]; exact e3, ?_⟩
        rw [hsh1, hsh2, mapInsert_map_fst, mapInsert_map_fst, e4]
      · exact absurd h2 (by simp)
    · exact absurd h1 (by simp)

theorem sigRun_sim (ops1 ops2 : List SigOp) (hf : List.Forall₂ SigSameOp ops1 ops2) :
    ∀ s1 s2 t1 t2, SigSim s1 s2 →
      sigRun s1 ops1 = some t1 → sigRun s2 ops2 = some t2 → SigSim t1 t2 := by
  induction hf with
  | nil =>
    intro s1 s2 t1 t2 hsim h1 h2
    simp only [sigRun, Option.some.injEq] at h1 h2
    rw [← h1, ← h2]
    exact hsim
  | cons hop htl ih =>
    intro s1 s2 t1 t2 hsim h1 h2
    simp only [sigRun] at h1 h2
    split at h1
    · rename_i m1 hm1
      split at h2
      · rename_i m2 hm2
        exact ih m1 m2 t1 t2 (sigStep_sim _ _ _ _ _ _ hsim hop hm1 hm2) h1 h2
      · exact absurd h2 (by simp)
    · exact absurd h1 (by simp)

/-! ### C9: identifier assignment is deterministic -/

/-- C9: identifier assignment is deterministic and independent of the
cryptographic randomness.  (i) keygen_round1 embeds the identifier
|round1Packages| + 1 (as u16) in its package, so two calls on states with
equal key lists use the same identifier; (ii) keygen_round2 assigns peer
identifiers by enumeration order over the supplied collection, determined by
its key list alone; (iii) signing_round2 assigns share identifiers by
enumeration order over the stored share map, determined by its size alone;
(iv), (v) running the same keygen or signing call sequence twice with
different randomness from states agreeing on all identifier-relevant data
preserves that agreement at every step. -/
theorem identifier_assignment_deterministic :
    (∀ (s1 s2 : KeygenState) (pid1 pid2 : String) (p q : Except String Nat)
        (t1 t2 : KeygenState) (v1 v2 : Val),
      s1.round1_packages.map Prod.fst = s2.round1_packages.map Prod.fst →
      keygen_round1_core (Except.ok (FrostResult.ok s1)) pid1 p = Except.ok (t1, v1) →
      keygen_round1_core (Except.ok (FrostResult.ok s2)) pid2 q = Except.ok (t2, v2) →
      ∃ i r1 r2,
        v1 = Val.pair (Val.dkgSecret i s1.max_participants s1.threshold r1)
          (Val.dkgPub i s1.max_participants s1.threshold r1) ∧
        v2 = Val.pair (Val.dkgSecret i s2.max_participants s2.threshold r2)
          (Val.dkgPub i s2.max_participants s2.threshold r2)) ∧
    (∀ (pid : String) (pkgs1 pkgs2 : List (String × Val)) (l1 l2 : List (Nat × Val)),
      pkgs1.map Prod.fst = pkgs2.map Prod.fst →
      collectPeers pid [] pkgs1 = Except.ok l1 →
      collectPeers pid [] pkgs2 = Except.ok l2 →
      l1.map Prod.fst = l2.map Prod.fst) ∧
    (∀ (sh1 sh2 : List (String × Val)) (il1 il2 : List (Nat × Val)),
      sh1.length = sh2.length →
      indexShares 0 sh1 = Except.ok il1 →
      indexShares 0 sh2 = Except.ok il2 →
      il1.map Prod.fst = il2.map Prod.fst) ∧
    (∀ (ops1 ops2 : List KgOp) (s1 s2 t1 t2 : KeygenState),
      List.Forall₂ KgSameOp ops1 ops2 → KgSim s1 s2 →
      kgRun s1 ops1 = some t1 → kgRun s2 ops2 = some t2 → KgSim t1 t2) ∧
    (∀ (ops1 ops2 : List SigOp) (s1 s2 t1 t2 : SigningState),
      List.Forall₂ SigSameOp ops1 ops2 → SigSim s1 s2 →
      sigRun s1 ops1 = some t1 → sigRun s2 ops2 = some t2 → SigSim t1 t2) := by
  refine ⟨?_, ?_, ?_, ?_, ?_⟩
  · intro s1 s2 pid1 pid2 p q t1 t2 v1 v2 hfst h1 h2
    obtain ⟨r1, hp, hv1⟩ := keygen_round1_core_payload s1 pid1 p t1 v1 h1
    obtain ⟨r2, hq, hv2⟩ := keygen_round1_core_payload s2 pid2 q t2 v2 h2
    have hlen : s1.round1_packages.length = s2.round1_packages.length := by
      have hc := congrArg List.length hfst
      simpa using hc
    exact ⟨(s1.round1_packages.length + 1) % 65536, r1, r2, hv1, by rw [hv2, hlen]⟩
  · intro pid pkgs1 pkgs2 l1 l2 hk h1 h2
    exact collectPeers_fst_det pid pkgs1 pkgs2 [] [] l1 l2 hk rfl h1 h2
  · intro sh1 sh2 il1 il2 hlen h1 h2
    exact indexShares_fst_det sh1 sh2 0 il1 il2 hlen h1 h2
  · intro ops1 ops2 s1 s2 t1 t2 hf hsim h1 h2
    exact kgRun_sim ops1 ops2 hf s1 s2 t1 t2 hsim h1 h2
  · intro ops1 ops2 s1 s2 t1 t2 hf hsim h1 h2
    exact sigRun_sim ops1 ops2 hf s1 s2 t1 t2 hsim h1 h2

/-- Witness for C9: concrete pairs of calls and runs differing only in the
randomness-derived material. -/
theorem identifier_assignment_deterministic_witness :
    (∃ i r1 r2,
      Val.pair (Val.dkgSecret 1 1 1 0) (Val.dkgPub 1 1 1 0) =
        Val.pair
          (Val.dkgSecret i
            (KeygenState.max_participants
              { threshold := 1, max_participants := 1, current_round := 1,
                round1_packages := [], key_packages := [], group_public_key := none })
            (KeygenState.threshold
              { threshold := 1, max_participants := 1, current_round := 1,
                round1_packages := [], key_packages := [], group_public_key := none }) r1)
          (Val.dkgPub i
            (KeygenState.max_participants
              { threshold := 1, max_participants := 1, current_round := 1,
                round1_packages := [], key_packages := [], group_public_key := none })
            (KeygenState.threshold
              { threshold := 1, max_participants := 1, current_round := 1,
                round1_packages := [], key_packages := [], group_public_key := none }) r1) ∧
      Val.pair (Val.dkgSecret 1 1 1 5) (Val.dkgPub 1 1 1 5) =
        Val.pair
          (Val.dkgSecret i
            (KeygenState.max_participants
              { threshold := 1, max_participants := 1, current_round := 1,
                round1_packages := [], key_packages := [], group_public_key := none })
            (KeygenState.threshold
              { threshold := 1, max_participants := 1, current_round := 1,
                round1_packages := [], key_packages := [], group_public_key := none }) r2)
          (Val.dkgPub i
            (KeygenState.max_participants
              { threshold := 1, max_participants := 1, current_round := 1,
                round1_packages := [], key_packages := [], group_public_key := none })
            (KeygenState.threshold
              { threshold := 1, max_participants := 1, current_round := 1,
                round1_packages := [], key_packages := [], group_public_key := none }) r2)) ∧
    ([(2, Val.ident 3)] : List (Nat × Val)).map Prod.fst =
      ([(2, Val.ident 6)] : List (Nat × Val)).map Prod.fst ∧
    ([(1, Val.ident 0)] : List (Nat × Val)).map Prod.fst =
      ([(1, Val.ident 1)] : List (Nat × Val)).map Prod.fst ∧
    KgSim
      { threshold := 1, max_participants := 1, current_round := 2,
        round1_packages :=
          [("a", Val.pair (Val.dkgSecret 1 1 1 0) (Val.dkgPub 1 1 1 0))],
        key_packages := [], group_public_key := none }
      { threshold := 1, max_participants := 1, current_round := 2,
        round1_packages :=
          [("a", Val.pair (Val.dkgSecret 1 1 1 5) (Val.dkgPub 1 1 1 5))],
        key_packages := [], group_public_key := none } ∧
    SigSim
      { message := [], current_round := 2, signers := ["a"],
        round1_packages := [("a", Val.pair (Val.nonces 0 1) (Val.commits 0 1))],
        signature_shares := [], final_signature := none }
      { message := [], current_round := 2, signers := ["a"],
        round1_packages := [("a", Val.pair (Val.nonces 2 3) (Val.commits 2 3))],
        signature_shares := [], final_signature := none } :=
  ⟨identifier_assignment_deterministic.1
      { threshold := 1, max_participants := 1, current_round := 1,
        round1_packages := [], key_packages := [], group_public_key := none }
      { threshold := 1, max_participants := 1, current_round := 1,
        round1_packages := [], key_packages := [], group_public_key := none }
      "a" "a" (Except.ok 0) (Except.ok 5)
      { threshold := 1, max_participants := 1, current_round := 2,
        round1_packages :=
          [("a", Val.pair (Val.dkgSecret 1 1 1 0) (Val.dkgPub 1 1 1 0))],
        key_packages := [], group_public_key := none }
      { threshold := 1, max_participants := 1, current_round := 2,
        round1_packages :=
          [("a", Val.pair (Val.dkgSecret 1 1 1 5) (Val.dkgPub 1 1 1 5))],
        key_packages := [], group_public_key := none }
      (Val.pair (Val.dkgSecret 1 1 1 0) (Val.dkgPub 1 1 1 0))
      (Val.pair (Val.dkgSecret 1 1 1 5) (Val.dkgPub 1 1 1 5))
      rfl (by decide) (by decide),
   identifier_assignment_deterministic.2.1 "a"
      [("a", Val.pair (Val.ident 0) (Val.ident 1)),
       ("b", Val.pair (Val.ident 2) (Val.ident 3))]
      [("a", Val.pair (Val.ident 9) (Val.ident 8)),
       ("b", Val.pair (Val.ident 7) (Val.ident 6))]
      [(2, Val.ident 3)] [(2, Val.ident 6)]
      (by decide) (by decide) (by decide),
   identifier_assignment_deterministic.2.2.1
      [("a", Val.ident 0)] [("b", Val.ident 1)]
      [(1, Val.ident 0)] [(1, Val.ident 1)]
      (by decide) (by decide) (by decide),
   identifier_assignment_deterministic.2.2.2.1
      [KgOp.r1 "a" (Except.ok 0)] [KgOp.r1 "a" (Except.ok 5)]
      { threshold := 1, max_participants := 1, current_round := 1,
        round1_packages := [], key_packages := [], group_public_key := none }
      { threshold := 1, max_participants := 1, current_round := 1,
        round1_packages := [], key_packages := [], group_public_key := none }
      { threshold := 1, max_participants := 1, current_round := 2,
        round1_packages :=
          [("a", Val.pair (Val.dkgSecret 1 1 1 0) (Val.dkgPub 1 1 1 0))],
        key_packages := [], group_public_key := none }
      { threshold := 1, max_participants := 1, current_round := 2,
        round1_packages :=
          [("a", Val.pair (Val.dkgSecret 1 1 1 5) (Val.dkgPub 1 1 1 5))],
        key_packages := [], group_public_key := none }
      (List.Forall₂.cons (KgSameOp.r1 "a" (Except.ok 0) (Except.ok 5))
        List.Forall₂.nil)
      ⟨rfl, rfl, rfl, rfl, rfl⟩ (by decide) (by decide),
   identifier_assignment_deterministic.2.2.2.2
      [SigOp.r1 "a" (Except.ok 0) 1] [SigOp.r1 "a" (Except.ok 2) 3]
      { message := [], current_round := 1, signers := ["a"],
        round1_packages := [], signature_shares := [], final_signature := none }
      { message := [], current_round := 1, signers := ["a"],
        round1_packages := [], signature_shares := [], final_signature := none }
      { message := [], current_round := 2, signers := ["a"],
        round1_packages := [("a", Val.pair (Val.nonces 0 1) (Val.commits 0 1))],
        signature_shares := [], final_signature := none }
      { message := [], current_round := 2, signers := ["a"],
        round1_packages := [("a", Val.pair (Val.nonces 2 3) (Val.commits 2 3))],
        signature_shares := [], final_signature := none }
      (List.Forall₂.cons (SigSameOp.r1 "a" (Except.ok 0) (Except.ok 2) 1 3)
        List.Forall₂.nil)
      ⟨rfl, rfl, rfl, rfl⟩ (by decide) (by decide)⟩
